import Mathlib

/-!
# octa-byte-ai: request pipeline and server lifecycle

A shallow embedding of the Go service under `application/`:

* `internal/handlers/middleware.go`: `LoggingMiddleware`, `MetricsMiddleware`,
  `RateLimitMiddleware` and the `responseWriter` status interceptor;
* `internal/handlers/health.go`, `internal/handlers/users.go`: the resource handlers;
* `cmd/server/main.go`: route registration and the shutdown sequence.

Go statements become computations in a state monad `M` over a `World` that holds
everything the handlers can touch: the connection's response, the `statusCode` cells of
the `responseWriter` values, the process-wide limiter, and a trace of every effect that
leaves the handler code (log calls, metric updates, clock reads, bytes sent).  A Go panic
and `os.Exit` are the two ways a computation stops early.

Libraries the program links against are represented by their documented contracts:
`net/http` (first `WriteHeader` wins, implicit 200 on `Write`), `gorilla/mux`
(middleware in registration order), `zap` (`Fatal` exits with status 1), and the token
bucket of `golang.org/x/time/rate`, which is modelled from the specification.
-/

namespace OctaByte

/-! ## Values, requests, payloads -/

/-- Dynamically typed Go values: what a `context.Context` stores and what the sugared
logger receives as arguments. -/
inductive Value where
  | str (s : String)
  | int (i : Int)
  deriving DecidableEq, Repr

/-- `models.User`; the two timestamps are nanoseconds. -/
structure User where
  ID : Int
  Name : String
  Email : String
  CreatedAt : Nat
  UpdatedAt : Nat
  deriving DecidableEq, Repr

/-- `models.CreateUserRequest`. -/
structure CreateUserRequest where
  Name : String
  Email : String
  deriving DecidableEq, Repr

/-- `handlers.HealthResponse`; `Checks` is the one-entry map with key `database`. -/
structure HealthResponse where
  Status : String
  Timestamp : Nat
  Version : String
  Checks : List (String × String)
  deriving DecidableEq, Repr

/-- Result of `json.NewDecoder(r.Body).Decode(&req)` on the request body. -/
inductive DecodedBody where
  | invalid (err : String)
  | request (req : CreateUserRequest)
  deriving DecidableEq, Repr

/-- The parts of `*http.Request` the program reads.  `ctx` is the context chain, newest
binding first; `vars` is what `mux.Vars` returns. -/
structure Request where
  method : String
  path : String
  remoteAddr : String
  userAgent : String
  ctx : List (String × Value)
  vars : List (String × String)
  body : DecodedBody
  deriving DecidableEq, Repr

/-- `context.WithValue` followed by `r.WithContext`. -/
def Request.WithValue (r : Request) (key : String) (v : Value) : Request :=
  { r with ctx := (key, v) :: r.ctx }

/-- `r.Context().Value(key)`. -/
def Request.Value (r : Request) (key : String) : Option Value :=
  r.ctx.lookup key

/-- What is handed to `Write`: plain text (`http.Error`, `fmt.Fprintln`) or the value
given to `json.NewEncoder(w).Encode`. -/
inductive Payload where
  | text (s : String)
  | jsonUsers (us : List User)
  | jsonUser (u : User)
  | jsonHealth (h : HealthResponse)
  | jsonMap (kv : List (String × String))
  deriving DecidableEq, Repr

/-! ## Header maps -/

/-- Bytes allowed in a header field name (RFC 7230 token characters). -/
def validHeaderFieldByte (c : Char) : Bool :=
  c.isAlphanum || "!#$%&*+-.^_|~".toList.contains c || c == (Char.ofNat 39) || c == (Char.ofNat 96)

/-- Upper-case the first letter and every letter after a hyphen, lower-case the rest. -/
def canonicalChars : Bool → List Char → List Char
  | _, [] => []
  | upper, c :: cs => (if upper then c.toUpper else c.toLower) :: canonicalChars (c == '-') cs

/-- `textproto.CanonicalMIMEHeaderKey`: a key with an invalid byte is returned as is. -/
def CanonicalMIMEHeaderKey (s : String) : String :=
  if s.toList.all validHeaderFieldByte then String.mk (canonicalChars true s.toList) else s

/-- `http.Header` restricted to single values (the program only calls `Set`). -/
abbrev Header := List (String × String)

/-- `Header.Set`. -/
def Header.Set (h : Header) (key value : String) : Header :=
  (CanonicalMIMEHeaderKey key, value) :: h.filter (fun kv => kv.1 != CanonicalMIMEHeaderKey key)

/-- `Header.Get`; `none` stands for the empty string of an absent key. -/
def Header.Get (h : Header) (key : String) : Option String :=
  h.lookup (CanonicalMIMEHeaderKey key)

/-! ## Effects -/

/-- Log levels used by the program. -/
inductive Level where
  | info
  | error
  | fatal
  deriving DecidableEq, Repr

/-- Every effect that leaves the handler code, in program order. -/
inductive Event where
  /-- `uuid.New().String()` returned `id`. -/
  | uuid (id : String)
  /-- `time.Now()` returned `t` (nanoseconds). -/
  | now (t : Nat)
  /-- A call of `logger.Info` / `Error` / `Fatal` with its argument list. -/
  | log (level : Level) (args : List Value)
  /-- `limiter.Allow()` answered `ok`. -/
  | allow (ok : Bool)
  /-- `httpRequestsTotal.WithLabelValues(labels...).Inc()`. -/
  | counterInc (labels : List String)
  /-- `httpRequestDuration.WithLabelValues(labels...).Observe(d)`, `d` in nanoseconds. -/
  | histObserve (labels : List String) (d : Nat)
  /-- The connection put a status line on the wire. -/
  | sendHeader (code : Int)
  /-- The connection put body bytes on the wire. -/
  | sendBody (p : Payload)
  /-- A database statement was issued. -/
  | dbExec (stmt : String) (args : List Value)
  /-- A probe handler was entered with this request. -/
  | handler (r : Request)
  /-- Any other library call of interest (`srv.Shutdown`, `db.Close`, ...). -/
  | call (name : String)
  deriving DecidableEq, Repr

/-- State of the connection's `http.response`. -/
structure Response where
  /-- Header map returned by `Header()`. -/
  header : Header := []
  wroteHeader : Bool := false
  status : Int := 0
  /-- Snapshot of the header map taken when the status line was written. -/
  sentHeader : Header := []
  /-- The 1xx interim responses sent so far. -/
  informational : List Int := []
  body : List Payload := []
  deriving DecidableEq, Repr

/-- Modelled from the spec: the state of the token bucket behind `limiter` (the type
`rate.Limiter` of `golang.org/x/time/rate` is not part of the repository), "two numbers —
current token count (bounded above by burst capacity) and last-refill timestamp",
together with its configuration R and B.  Time is in nanoseconds and the token count in
billionths of a token, so that `elapsed * R` is exact. -/
structure TokenBucket where
  /-- Refill rate R, tokens per second. -/
  rate : Nat
  /-- Burst capacity B, tokens. -/
  burst : Nat
  /-- Current token count, billionths of a token. -/
  tokens : Int
  /-- Last-refill timestamp, nanoseconds. -/
  last : Nat
  deriving DecidableEq, Repr

/-- Errors `QueryRow(...).Scan` can report. -/
inductive DbError where
  | noRows
  | other (msg : String)
  deriving DecidableEq, Repr

/-- Answers of the database (`*sql.DB`), which is outside the program. -/
structure Database where
  /-- Error of `Ping`, if any. -/
  ping : Option String
  /-- `Query` of the users table: an error, or the rows, each of which scans or fails. -/
  selectAll : Except String (List (Except String User))
  /-- `QueryRow` of the INSERT ... RETURNING statement. -/
  insert : String → String → Except DbError User
  /-- `QueryRow` of the SELECT by id. -/
  selectOne : Int → Except DbError User

/-- Everything a handler can read or change. -/
structure World where
  trace : List Event
  /-- Results of successive `uuid.New()` calls. -/
  uuids : Nat → String
  uuidCalls : Nat
  /-- Results of successive `time.Now()` calls, nanoseconds. -/
  clock : Nat → Nat
  clockCalls : Nat
  /-- The package-level `limiter`. -/
  limiter : TokenBucket
  /-- The `statusCode` fields of the `responseWriter` values allocated so far. -/
  cells : List Int
  /-- The response of the request being served. -/
  resp : Response
  db : Database

/-- Why a computation stopped early. -/
inductive Abort where
  | panic (msg : String)
  | exit (code : Nat)
  deriving DecidableEq, Repr

/-- Outcome of running a computation. -/
inductive Res (α : Type) where
  | ok (a : α) (w : World)
  | abort (why : Abort) (w : World)

/-- World after the computation, however it ended. -/
def Res.world {α : Type} : Res α → World
  | .ok _ w => w
  | .abort _ w => w

/-- Whether the computation ran to its end. -/
def Res.returned {α : Type} : Res α → Bool
  | .ok _ _ => true
  | .abort _ _ => false

/-- Go code as a state transformer that may stop early. -/
def M (α : Type) : Type := World → Res α

/-- Sequencing: an abort skips the rest. -/
def M.bind {α β : Type} (m : M α) (f : α → M β) : M β := fun w =>
  match m w with
  | .ok a w1 => f a w1
  | .abort e w1 => .abort e w1

instance : Monad M where
  pure a := fun w => .ok a w
  bind := M.bind

/-- Append one event to the trace. -/
def emit (e : Event) : M Unit := fun w =>
  .ok () { w with trace := w.trace ++ [e] }

/-- Go `panic`. -/
def goPanic {α : Type} (msg : String) : M α := fun w => .abort (.panic msg) w

/-- `os.Exit`. -/
def osExit {α : Type} (code : Nat) : M α := fun w => .abort (.exit code) w

/-- `time.Now()`. -/
def timeNow : M Nat := fun w =>
  .ok (w.clock w.clockCalls)
    { w with clockCalls := w.clockCalls + 1, trace := w.trace ++ [.now (w.clock w.clockCalls)] }

/-- `time.Since(start)`, nanoseconds. -/
def timeSince (start : Nat) : M Nat := do
  let t ← timeNow
  pure (t - start)

/-- `uuid.New().String()`. -/
def uuidNewString : M String := fun w =>
  .ok (w.uuids w.uuidCalls)
    { w with uuidCalls := w.uuidCalls + 1, trace := w.trace ++ [.uuid (w.uuids w.uuidCalls)] }

/-- `h.logger.Info(args...)`. -/
def loggerInfo (args : List Value) : M Unit := emit (.log .info args)

/-- `h.logger.Error(args...)`. -/
def loggerError (args : List Value) : M Unit := emit (.log .error args)

/-- `log.Fatal(args...)`: zap writes the record, then calls `os.Exit(1)`. -/
def loggerFatal {α : Type} (args : List Value) : M α := do
  emit (.log .fatal args)
  osExit 1

/-! ## net/http: the connection's response -/

/-- `(*response).WriteHeader`: a call after the header is written is ignored
("superfluous WriteHeader call"); a code outside 100..999 panics; a 1xx code other than
101 sends an interim response and leaves the final status open; otherwise the status
line goes out with the header map as it is now. -/
def connWriteHeader (code : Int) : M Unit := fun w =>
  if w.resp.wroteHeader then .ok () w
  else if code < 100 ∨ code > 999 then .abort (.panic "invalid WriteHeader code") w
  else if 100 ≤ code ∧ code ≤ 199 ∧ code ≠ 101 then
    .ok () { w with resp := { w.resp with informational := w.resp.informational ++ [code] },
                    trace := w.trace ++ [.sendHeader code] }
  else
    .ok () { w with resp := { w.resp with wroteHeader := true, status := code,
                                          sentHeader := w.resp.header },
                    trace := w.trace ++ [.sendHeader code] }

/-- `(*response).Write`: "if WriteHeader has not yet been called, Write calls
WriteHeader(http.StatusOK) before writing the data". -/
def connWrite (p : Payload) : M Unit := do
  connWriteHeader 200
  fun w => .ok () { w with resp := { w.resp with body := w.resp.body ++ [p] },
                           trace := w.trace ++ [.sendBody p] }

/-- `w.Header().Set(key, value)` on the connection's response. -/
def connHeaderSet (key value : String) : M Unit := fun w =>
  .ok () { w with resp := { w.resp with header := w.resp.header.Set key value } }

/-- What the server does once the handler has returned (`finishRequest`): a handler that
wrote nothing gets an empty 200 response. -/
def finishRequest : M Unit := connWriteHeader 200

/-- Status code the client observes, if a status line was sent at all. -/
def Response.sentStatus (r : Response) : Option Int :=
  if r.wroteHeader then some r.status else none

/-! ## The `responseWriter` status interceptor -/

/-- Values of the interface `http.ResponseWriter` that occur in the program: the
connection's response, or a `*responseWriter` around another writer whose `statusCode`
field is `cells[cell]`. -/
inductive ResponseWriter where
  | conn
  | responseWriter (cell : Nat) (inner : ResponseWriter)
  deriving DecidableEq, Repr

/-- Assignment `rw.statusCode = code`. -/
def setStatusCode (cell : Nat) (code : Int) : M Unit := fun w =>
  .ok () { w with cells := w.cells.set cell code }

/-- Read of `rw.statusCode`. -/
def getStatusCode (cell : Nat) : M Int := fun w =>
  .ok (w.cells.getD cell 0) w

/-- `&responseWriter{ResponseWriter: w, statusCode: code}`. -/
def newResponseWriter (inner : ResponseWriter) (code : Int) : M ResponseWriter := fun w =>
  .ok (.responseWriter w.cells.length inner) { w with cells := w.cells ++ [code] }

/-- `Header().Set`: `responseWriter` does not define `Header`, the embedded writer's is
used. -/
def ResponseWriter.HeaderSet : ResponseWriter → String → String → M Unit
  | .conn, k, v => connHeaderSet k v
  | .responseWriter _ inner, k, v => inner.HeaderSet k v

/-- `WriteHeader`: the wrapper records the code, then forwards the call. -/
def ResponseWriter.WriteHeader : ResponseWriter → Int → M Unit
  | .conn, code => connWriteHeader code
  | .responseWriter cell inner, code => do
      setStatusCode cell code
      inner.WriteHeader code

/-- `Write`: `responseWriter` does not define `Write`, the embedded writer's is used. -/
def ResponseWriter.Write : ResponseWriter → Payload → M Unit
  | .conn, p => connWrite p
  | .responseWriter _ inner, p => inner.Write p

/-- `wrapped.statusCode` for a writer known to be a `*responseWriter`. -/
def ResponseWriter.statusCode : ResponseWriter → M Int
  | .conn => pure 0
  | .responseWriter cell _ => getStatusCode cell

/-- `http.Error(w, error, code)`. -/
def httpError (w : ResponseWriter) (error : String) (code : Int) : M Unit := do
  w.HeaderSet "Content-Type" "text/plain; charset=utf-8"
  w.HeaderSet "X-Content-Type-Options" "nosniff"
  w.WriteHeader code
  w.Write (.text (error ++ "\n"))

/-- `strconv.Itoa`. -/
def Itoa (i : Int) : String := toString i

/-! ## The admission controller -/

/-- Billionths of a token per token. -/
def tokenUnit : Int := 1000000000

/-- Modelled from the spec: the token bucket of `golang.org/x/time/rate`, whose source is
not part of the repository.  "On each call: compute elapsed time since last refill, add
`elapsed * R` tokens (capped at B), then attempt to deduct 1 token.  If at least 1 token
is available, deduct it and return allowed=true; otherwise return allowed=false without
mutating below zero."  A denied call leaves the bucket as it was; the next call computes
its refill from the same last-refill timestamp. -/
def TokenBucket.allow (b : TokenBucket) (now : Nat) : TokenBucket × Bool :=
  let elapsed : Int := (now : Int) - (b.last : Int)
  let available : Int := min ((b.burst : Int) * tokenUnit) (b.tokens + elapsed * (b.rate : Int))
  if tokenUnit ≤ available then
    ({ b with tokens := available - tokenUnit, last := now }, true)
  else
    (b, false)

/-- Modelled from the spec: a bucket created full, as `rate.NewLimiter(r, b)` does. -/
def NewLimiter (rate burst : Nat) : TokenBucket :=
  { rate := rate, burst := burst, tokens := (burst : Int) * tokenUnit, last := 0 }

/-- The package-level `limiter = rate.NewLimiter(rate.Limit(100), 10)`. -/
def limiter : TokenBucket := NewLimiter 100 10

/-- `limiter.Allow()`, which is `AllowN(time.Now(), 1)` under the limiter's mutex. -/
def limiterAllow : M Bool := do
  let t ← timeNow
  fun w =>
    .ok (w.limiter.allow t).2
      { w with limiter := (w.limiter.allow t).1, trace := w.trace ++ [.allow (w.limiter.allow t).2] }

/-! ## Middleware (`internal/handlers/middleware.go`) -/

/-- `http.Handler`. -/
abbrev Handler := ResponseWriter → Request → M Unit

/-- `http.StatusOK`. -/
def StatusOK : Int := 200
/-- `http.StatusCreated`. -/
def StatusCreated : Int := 201
/-- `http.StatusBadRequest`. -/
def StatusBadRequest : Int := 400
/-- `http.StatusNotFound`. -/
def StatusNotFound : Int := 404
/-- `http.StatusTooManyRequests`. -/
def StatusTooManyRequests : Int := 429
/-- `http.StatusInternalServerError`. -/
def StatusInternalServerError : Int := 500
/-- `http.StatusServiceUnavailable`. -/
def StatusServiceUnavailable : Int := 503

/-- `(h *Handlers) LoggingMiddleware`. -/
def LoggingMiddleware (next : Handler) : Handler := fun w r => do
  let correlationID ← uuidNewString
  let r := r.WithValue "correlation_id" (.str correlationID)
  w.HeaderSet "X-Correlation-ID" correlationID
  let start ← timeNow
  loggerInfo [.str "Request started",
    .str "method", .str r.method,
    .str "path", .str r.path,
    .str "remote_addr", .str r.remoteAddr,
    .str "user_agent", .str r.userAgent,
    .str "correlation_id", .str correlationID]
  let wrapped ← newResponseWriter w StatusOK
  next wrapped r
  let duration ← timeSince start
  let statusCode ← wrapped.statusCode
  loggerInfo [.str "Request completed",
    .str "method", .str r.method,
    .str "path", .str r.path,
    .str "status_code", .int statusCode,
    .str "duration_ms", .int (duration / 1000000 : Nat),
    .str "correlation_id", .str correlationID]

/-- `(h *Handlers) MetricsMiddleware`. -/
def MetricsMiddleware (next : Handler) : Handler := fun w r => do
  let start ← timeNow
  let wrapped ← newResponseWriter w StatusOK
  next wrapped r
  let duration ← timeSince start
  let statusCode := Itoa (← wrapped.statusCode)
  emit (.counterInc [r.method, r.path, statusCode])
  emit (.histObserve [r.method, r.path] duration)

/-- `(h *Handlers) RateLimitMiddleware`. -/
def RateLimitMiddleware (next : Handler) : Handler := fun w r => do
  if !(← limiterAllow) then
    httpError w "Rate limit exceeded" StatusTooManyRequests
  else
    next w r

/-! ## Resource handlers (`internal/handlers/health.go`, `internal/handlers/users.go`) -/

/-- `h.db.Ping()`. -/
def dbPing : M (Option String) := fun w =>
  .ok w.db.ping { w with trace := w.trace ++ [.call "db.Ping"] }

/-- Message of a database error (`err.Error()`). -/
def DbError.Error : DbError → String
  | .noRows => "sql: no rows in result set"
  | .other msg => msg

/-- `(h *Handlers) Health`. -/
def Health : Handler := fun w _ => do
  let t ← timeNow
  let response : HealthResponse :=
    { Status := "healthy", Timestamp := t, Version := "1.0.0", Checks := [("database", "ok")] }
  let response ← (match (← dbPing) with
    | some err => do
        w.WriteHeader StatusServiceUnavailable
        pure { response with Status := "unhealthy", Checks := [("database", "error: " ++ err)] }
    | none => pure response)
  w.HeaderSet "Content-Type" "application/json"
  w.Write (.jsonHealth response)

/-- `(h *Handlers) Ready`. -/
def Ready : Handler := fun w _ => do
  match (← dbPing) with
  | some _ => httpError w "Database not ready" StatusServiceUnavailable
  | none =>
      w.HeaderSet "Content-Type" "application/json"
      w.Write (.jsonMap [("status", "ready")])

/-- The type assertion `x.(string)`: panics on nil and on a value of another type. -/
def assertString : Option Value → M String
  | some (.str s) => pure s
  | some (.int _) => goPanic "interface conversion: interface is int, not string"
  | none => goPanic "interface conversion: interface is nil, not string"

/-- Text of the SELECT in `GetUsers`. -/
def selectAllQuery : String :=
  "SELECT id, name, email, created_at, updated_at FROM users ORDER BY created_at DESC"

/-- Text of the INSERT in `CreateUser`. -/
def insertQuery : String :=
  "INSERT INTO users (name, email, created_at, updated_at) VALUES ($1, $2, NOW(), NOW()) RETURNING id, name, email, created_at, updated_at"

/-- Text of the SELECT in `GetUser`. -/
def selectOneQuery : String :=
  "SELECT id, name, email, created_at, updated_at FROM users WHERE id = $1"

/-- `h.db.Query(query)` in `GetUsers`. -/
def dbSelectAll : M (Except String (List (Except String User))) := fun w =>
  .ok w.db.selectAll { w with trace := w.trace ++ [.dbExec selectAllQuery []] }

/-- `h.db.QueryRow(query, name, email).Scan(...)` in `CreateUser`. -/
def dbInsert (name email : String) : M (Except DbError User) := fun w =>
  .ok (w.db.insert name email)
    { w with trace := w.trace ++ [.dbExec insertQuery [.str name, .str email]] }

/-- `h.db.QueryRow(query, id).Scan(...)` in `GetUser`. -/
def dbSelectOne (id : Int) : M (Except DbError User) := fun w =>
  .ok (w.db.selectOne id) { w with trace := w.trace ++ [.dbExec selectOneQuery [.int id]] }

/-- The `for rows.Next()` loop of `GetUsers`: a row that fails to scan is logged and
skipped. -/
def scanRows (correlationID : String) : List (Except String User) → List User → M (List User)
  | [], users => pure users
  | .ok user :: rows, users => scanRows correlationID rows (users ++ [user])
  | .error err :: rows, users => do
      loggerError [.str "Failed to scan user", .str "error", .str err,
        .str "correlation_id", .str correlationID]
      scanRows correlationID rows users

/-- `(h *Handlers) GetUsers`. -/
def GetUsers : Handler := fun w r => do
  let correlationID ← assertString (r.Value "correlation_id")
  loggerInfo [.str "Getting users", .str "correlation_id", .str correlationID]
  match (← dbSelectAll) with
  | .error err =>
      loggerError [.str "Failed to query users", .str "error", .str err,
        .str "correlation_id", .str correlationID]
      httpError w "Internal server error" StatusInternalServerError
  | .ok rows =>
      let users ← scanRows correlationID rows []
      w.HeaderSet "Content-Type" "application/json"
      w.Write (.jsonUsers users)
      emit (.call "rows.Close")

/-- `(h *Handlers) CreateUser`. -/
def CreateUser : Handler := fun w r => do
  let correlationID ← assertString (r.Value "correlation_id")
  match r.body with
  | .invalid err =>
      loggerError [.str "Failed to decode request", .str "error", .str err,
        .str "correlation_id", .str correlationID]
      httpError w "Invalid request body" StatusBadRequest
  | .request req =>
      if req.Name == "" || req.Email == "" then
        httpError w "Name and email are required" StatusBadRequest
      else do
        loggerInfo [.str "Creating user", .str "name", .str req.Name, .str "email", .str req.Email,
          .str "correlation_id", .str correlationID]
        match (← dbInsert req.Name req.Email) with
        | .error err =>
            loggerError [.str "Failed to create user", .str "error", .str err.Error,
              .str "correlation_id", .str correlationID]
            httpError w "Failed to create user" StatusInternalServerError
        | .ok user =>
            w.HeaderSet "Content-Type" "application/json"
            w.WriteHeader StatusCreated
            w.Write (.jsonUser user)

/-- Value of a string of decimal digits, most significant first. -/
def digitsValue : List Char → Nat → Option Nat
  | [], acc => some acc
  | c :: cs, acc => if c.isDigit then digitsValue cs (acc * 10 + (c.toNat - 48)) else none

/-- `strconv.Atoi` on a 64-bit platform: an optional sign, at least one decimal digit,
and a value that fits in `int`. -/
def Atoi (s : String) : Option Int :=
  let parse (neg : Bool) (ds : List Char) : Option Int :=
    match ds with
    | [] => none
    | _ => (digitsValue ds 0).bind fun n =>
        if neg then (if n ≤ 9223372036854775808 then some (-(n : Int)) else none)
        else (if n ≤ 9223372036854775807 then some (n : Int) else none)
  match s.toList with
  | '-' :: ds => parse true ds
  | '+' :: ds => parse false ds
  | ds => parse false ds

/-- `(h *Handlers) GetUser`. -/
def GetUser : Handler := fun w r => do
  let correlationID ← assertString (r.Value "correlation_id")
  match Atoi ((r.vars.lookup "id").getD "") with
  | none => httpError w "Invalid user ID" StatusBadRequest
  | some id =>
      loggerInfo [.str "Getting user", .str "id", .int id, .str "correlation_id", .str correlationID]
      match (← dbSelectOne id) with
      | .error .noRows => httpError w "User not found" StatusNotFound
      | .error (.other msg) =>
          loggerError [.str "Failed to get user", .str "error", .str msg,
            .str "correlation_id", .str correlationID]
          httpError w "Internal server error" StatusInternalServerError
      | .ok user =>
          w.HeaderSet "Content-Type" "application/json"
          w.Write (.jsonUser user)

/-! ## Arbitrary downstream handlers -/

/-- One step of a handler as seen by the writer it was given. -/
inductive Op where
  | setHeader (key value : String)
  | writeHeader (code : Int)
  | write (p : Payload)
  | log (level : Level) (args : List Value)
  | panic (msg : String)
  deriving DecidableEq, Repr

/-- Perform the steps in order on the writer `w`. -/
def runOps (w : ResponseWriter) : List Op → M Unit
  | [] => pure ()
  | .setHeader k v :: ops => do w.HeaderSet k v; runOps w ops
  | .writeHeader code :: ops => do w.WriteHeader code; runOps w ops
  | .write p :: ops => do w.Write p; runOps w ops
  | .log level args :: ops => do emit (.log level args); runOps w ops
  | .panic msg :: _ => goPanic msg

/-- The handler that records its invocation and then behaves as `b` prescribes. -/
def handlerOf (b : Request → List Op) : Handler := fun w r => do
  emit (.handler r)
  runOps w (b r)

/-! ## Routing (`gorilla/mux`) and the server loop -/

/-- One path segment of a route template: literal text or a `{name}` variable. -/
inductive Segment where
  | lit (s : String)
  | var (name : String)
  deriving DecidableEq, Repr

/-- A registered route with the middleware of the router it was registered on. -/
structure Route where
  method : String
  template : List Segment
  handler : Handler
  middlewares : List (Handler → Handler)

/-- Split `cs` at every slash. -/
def splitSlash : List Char → List Char → List String
  | [], cur => [String.mk cur.reverse]
  | c :: cs, cur => if c == '/' then String.mk cur.reverse :: splitSlash cs [] else splitSlash cs (c :: cur)

/-- Segments of a URL path; `none` when it does not start with a slash. -/
def pathSegments (path : String) : Option (List String) :=
  match path.toList with
  | '/' :: cs => some (splitSlash cs [])
  | _ => none

/-- Match a template against path segments; a variable matches one non-empty segment. -/
def matchSegments : List Segment → List String → Option (List (String × String))
  | [], [] => some []
  | .lit s :: ps, x :: xs => if s == x then matchSegments ps xs else none
  | .var n :: ps, x :: xs =>
      if x == "" then none else (matchSegments ps xs).map (fun vars => (n, x) :: vars)
  | _, _ => none

/-- Outcome of `Router.Match`. -/
inductive RouteMatch where
  | found (route : Route) (vars : List (String × String))
  | methodNotAllowed
  | notFound

/-- `Router.Match`: routes are tried in registration order; a route whose path matches
but whose method does not is remembered as a method mismatch. -/
def matchRoutes (method : String) (segs : List String) : List Route → Bool → RouteMatch
  | [], mismatch => if mismatch then .methodNotAllowed else .notFound
  | route :: rest, mismatch =>
      match matchSegments route.template segs with
      | some vars =>
          if route.method == method then .found route vars
          else matchRoutes method segs rest true
      | none => matchRoutes method segs rest mismatch

/-- `Router.Use`: middleware is appended to the router's list. -/
def Use (mws : List (Handler → Handler)) (mw : Handler → Handler) : List (Handler → Handler) :=
  mws ++ [mw]

/-- How mux builds the handler of a matched route: the list is walked from its last
element to its first, each middleware wrapping what was built so far. -/
def applyMiddlewares (mws : List (Handler → Handler)) (h : Handler) : Handler :=
  mws.foldr (fun mw acc => mw acc) h

/-- `Router.ServeHTTP` for requests with a clean path.  Middleware only runs for a
matched route. -/
def serveMux (routes : List Route) : Handler := fun w r =>
  match matchRoutes r.method ((pathSegments r.path).getD []) routes false with
  | .found route vars => applyMiddlewares route.middlewares route.handler w { r with vars := vars }
  | .methodNotAllowed => w.WriteHeader 405
  | .notFound => httpError w "404 page not found" StatusNotFound

/-- Middleware of the `/api` subrouter after the three `api.Use` calls in `main`. -/
def apiMiddlewares : List (Handler → Handler) :=
  Use (Use (Use [] LoggingMiddleware) MetricsMiddleware) RateLimitMiddleware

/-- The route table built in `main`; `promHandler` is `promhttp.Handler().ServeHTTP`. -/
def routes (promHandler : Handler) : List Route :=
  [ { method := "GET", template := [.lit "health"], handler := Health, middlewares := [] },
    { method := "GET", template := [.lit "ready"], handler := Ready, middlewares := [] },
    { method := "GET", template := [.lit "metrics"], handler := promHandler, middlewares := [] },
    { method := "GET", template := [.lit "api", .lit "users"], handler := GetUsers,
      middlewares := apiMiddlewares },
    { method := "POST", template := [.lit "api", .lit "users"], handler := CreateUser,
      middlewares := apiMiddlewares },
    { method := "GET", template := [.lit "api", .lit "users", .var "id"], handler := GetUser,
      middlewares := apiMiddlewares } ]

/-- The `router` given to `http.Server` in `main`. -/
def router (promHandler : Handler) : Handler := serveMux (routes promHandler)

/-- A connection's response before the handler runs. -/
def freshResponse : Response := {}

/-- One request through the server: the handler runs on a fresh response; when it
returns the response is finished, when it panics the connection is dropped as it is. -/
def serve (h : Handler) (r : Request) (w : World) : World :=
  match (do h .conn r; finishRequest : M Unit) { w with resp := freshResponse } with
  | .ok _ w1 => w1
  | .abort _ w1 => w1

/-- Serve the requests one after the other, collecting each response. -/
def serveAll (h : Handler) : List Request → World → List Response × World
  | [], w => ([], w)
  | r :: rs, w =>
      let w1 := serve h r w
      let rest := serveAll h rs w1
      (w1.resp :: rest.1, rest.2)

/-! ## `main` (`cmd/server/main.go`) -/

/-- What the outside world answers to `main`. -/
structure Env where
  port : String
  dbHost : String
  /-- Error of `database.NewPostgresDB`, if any. -/
  dbErr : Option String
  /-- Error of `srv.ListenAndServe` other than `http.ErrServerClosed`, if any. -/
  listenErr : Option String
  /-- Error of `srv.Shutdown(ctx)`, if any: the 30 s drain timeout elapsed. -/
  shutdownErr : Option String
  deriving DecidableEq, Repr

/-- Go `defer`: `deferred` runs when `body` returns or panics, not when the process
exits. -/
def withDefer {α : Type} (deferred : M Unit) (body : M α) : M α := fun w =>
  match body w with
  | .ok a w1 =>
      (match deferred w1 with
       | .ok _ w2 => .ok a w2
       | .abort e w2 => .abort e w2)
  | .abort (.panic msg) w1 =>
      (match deferred w1 with
       | .ok _ w2 => .abort (.panic msg) w2
       | .abort e w2 => .abort e w2)
  | .abort (.exit code) w1 => .abort (.exit code) w1

/-- `func main()`.  The serving goroutine is placed where it is started; the receive
`<-quit` is the event `signal`. -/
def main (env : Env) : M Unit :=
  withDefer (emit (.call "log.Sync")) do
    loggerInfo [.str "Configuration loaded", .str "port", .str env.port, .str "db_host", .str env.dbHost]
    (match env.dbErr with
     | some err => loggerFatal [.str "Failed to connect to database", .str "error", .str err]
     | none => pure ())
    withDefer (emit (.call "db.Close")) do
      loggerInfo [.str "Database connection established"]
      loggerInfo [.str "Skipping automatic migrations - table should be created manually"]
      loggerInfo [.str "Server starting", .str "port", .str env.port]
      (match env.listenErr with
       | some err => loggerFatal [.str "Server failed to start", .str "error", .str err]
       | none => pure ())
      emit (.call "signal")
      loggerInfo [.str "Server shutting down..."]
      withDefer (emit (.call "cancel")) do
        emit (.call "srv.Shutdown")
        (match env.shutdownErr with
         | some err => loggerFatal [.str "Server forced to shutdown", .str "error", .str err]
         | none => pure ())
        loggerInfo [.str "Server exited"]

/-! ## Vocabulary of the statements -/

/-- The record `LoggingMiddleware` writes before the handler runs. -/
def startedRecord (r : Request) (id : String) : Event :=
  .log .info [.str "Request started", .str "method", .str r.method, .str "path", .str r.path,
    .str "remote_addr", .str r.remoteAddr, .str "user_agent", .str r.userAgent,
    .str "correlation_id", .str id]

/-- The record `LoggingMiddleware` writes after the handler has returned. -/
def completedRecord (r : Request) (status : Int) (durationMs : Nat) (id : String) : Event :=
  .log .info [.str "Request completed", .str "method", .str r.method, .str "path", .str r.path,
    .str "status_code", .int status, .str "duration_ms", .int durationMs,
    .str "correlation_id", .str id]

/-- The pipeline of an `/api` route around the resource handler `next`. -/
def apiPipeline (next : Handler) : Handler :=
  LoggingMiddleware (MetricsMiddleware (RateLimitMiddleware next))

/-- A sequence of admission checks at the given times: the answer of each check and the
bucket after it. -/
def allowSeq : TokenBucket → List Nat → List (Bool × TokenBucket)
  | _, [] => []
  | b, t :: ts => ((b.allow t).2, (b.allow t).1) :: allowSeq (b.allow t).1 ts

/-- Number of events that are probe-handler entries. -/
def handlerCalls (trace : List Event) : Nat :=
  (trace.filter fun e => match e with | .handler _ => true | _ => false).length

/-- The counter series incremented in a trace, in order. -/
def counterSeries (trace : List Event) : List (List String) :=
  trace.filterMap fun e => match e with | .counterInc labels => some labels | _ => none

/-- The histogram series observed in a trace, in order. -/
def histogramSeries (trace : List Event) : List (List String) :=
  trace.filterMap fun e => match e with | .histObserve labels _ => some labels | _ => none

/-- The log records of a trace, in order. -/
def logRecords (trace : List Event) : List (Level × List Value) :=
  trace.filterMap fun e => match e with | .log level args => some (level, args) | _ => none

/-- The library calls of a trace, in order. -/
def libraryCalls (trace : List Event) : List String :=
  trace.filterMap fun e => match e with | .call name => some name | _ => none

/-- Steps that neither set a status nor panic. -/
def quiet : List Op → Bool
  | [] => true
  | .writeHeader _ :: _ => false
  | .panic _ :: _ => false
  | _ :: ops => quiet ops

/-- A handler that sets its status at most once, with a final status code, before it
writes any body, and does not panic. -/
def disciplined : List Op → Bool
  | [] => true
  | .writeHeader code :: ops => decide (200 ≤ code) && decide (code ≤ 999) && quiet ops
  | .write _ :: ops => quiet ops
  | .panic _ :: _ => false
  | _ :: ops => disciplined ops

/-- Run a handler's steps on a `responseWriter` around the connection, as
`LoggingMiddleware` does, and report the wrapper's `statusCode` after the handler
returned together with the status the client got.  `none` when the handler panicked. -/
def observe (ops : List Op) (w : World) : Option (Int × Option Int) :=
  match (do
      let wrapped ← newResponseWriter .conn StatusOK
      runOps wrapped ops
      let captured ← wrapped.statusCode
      finishRequest
      pure captured : M Int) { w with resp := freshResponse } with
  | .ok captured w1 => some (captured, w1.resp.sentStatus)
  | .abort _ _ => none

/-- The response carries `id` as its correlation header: in the header map, and in the
header block that went out if one did. -/
def CarriesCorrelation (id : String) (resp : Response) : Prop :=
  resp.header.Get "X-Correlation-ID" = some id ∧
    (resp.wroteHeader = true → resp.sentHeader.Get "X-Correlation-ID" = some id)

/-- The handler leaves a correlation header it finds in place. -/
def KeepsCorrelation (next : Handler) : Prop :=
  ∀ (id : String) (wr : ResponseWriter) (r : Request) (w : World),
    CarriesCorrelation id w.resp → CarriesCorrelation id (next wr r w).world.resp

/-- Whether a step sets the correlation header. -/
def Op.setsCorrelation : Op → Bool
  | .setHeader key _ => CanonicalMIMEHeaderKey key == CanonicalMIMEHeaderKey "X-Correlation-ID"
  | _ => false

/-- The request matches one of the three routes of the `/api` subrouter. -/
def isApiRoute (r : Request) : Prop :=
  (r.method = "GET" ∧ pathSegments r.path = some ["api", "users"]) ∨
  (r.method = "POST" ∧ pathSegments r.path = some ["api", "users"]) ∨
  (r.method = "GET" ∧ ∃ id, id ≠ "" ∧ pathSegments r.path = some ["api", "users", id])

/-- The bucket holds exactly `k` whole tokens and `t` is not before its last refill;
if `t` is later than the last refill the bucket is full. -/
def HoldsAt (b : TokenBucket) (k t : Nat) : Prop :=
  b.tokens = (k : Int) * tokenUnit ∧ k ≤ b.burst ∧ b.last ≤ t ∧ (b.last < t → k = b.burst)

/-- The second world has the clock, the limiter and the number of handler entries of the
first. -/
def SameAdmission (w w1 : World) : Prop :=
  w1.clock = w.clock ∧ w1.clockCalls = w.clockCalls ∧ w1.limiter = w.limiter ∧
    handlerCalls w1.trace = handlerCalls w.trace

/-- The wrapper with cell `n` has seen the status that went out. -/
def Committed (n : Nat) (w : World) : Prop :=
  n < w.cells.length ∧ w.resp.wroteHeader = true ∧ w.resp.status = w.cells.getD n 0

/-- Nothing has gone out yet and the wrapper with cell `n` still holds its default. -/
def Pristine (n : Nat) (w : World) : Prop :=
  n < w.cells.length ∧ w.resp.wroteHeader = false ∧ w.cells.getD n 0 = 200

/-- The writer `MetricsMiddleware` hands to its handler when `LoggingMiddleware` around
it was entered in world `w`: the Metrics wrapper around the Logging wrapper around the
connection. -/
def observedWriter (w : World) : ResponseWriter :=
  .responseWriter (w.cells.length + 1) (.responseWriter w.cells.length .conn)

/-- The request `LoggingMiddleware` passes on when entered in world `w`. -/
def observedRequest (r : Request) (w : World) : Request :=
  r.WithValue "correlation_id" (.str (w.uuids w.uuidCalls))

/-- The world in which the handler of `LoggingMiddleware(MetricsMiddleware(handler))`
starts when the pair was entered in world `w`: both pre-phases are done. -/
def observedEntry (r : Request) (w : World) : World :=
  { w with
    uuidCalls := w.uuidCalls + 1
    clockCalls := w.clockCalls + 2
    cells := w.cells ++ [200, 200]
    resp := { w.resp with header := w.resp.header.Set "X-Correlation-ID" (w.uuids w.uuidCalls) }
    trace := w.trace ++ [.uuid (w.uuids w.uuidCalls), .now (w.clock w.clockCalls),
      startedRecord r (w.uuids w.uuidCalls), .now (w.clock (w.clockCalls + 1))] }

/-- The writer `LoggingMiddleware` hands to its handler when entered in world `w`. -/
def loggingWriter (w : World) : ResponseWriter := .responseWriter w.cells.length .conn

/-- The world in which the handler of `LoggingMiddleware(handler)` starts when the
middleware was entered in world `w`. -/
def loggingEntry (r : Request) (w : World) : World :=
  { w with
    uuidCalls := w.uuidCalls + 1
    clockCalls := w.clockCalls + 1
    cells := w.cells ++ [200]
    resp := { w.resp with header := w.resp.header.Set "X-Correlation-ID" (w.uuids w.uuidCalls) }
    trace := w.trace ++ [.uuid (w.uuids w.uuidCalls), .now (w.clock w.clockCalls),
      startedRecord r (w.uuids w.uuidCalls)] }

/-- From `w` to `w1` the trace only grew and a correlation header stayed in place. -/
def Step (w w1 : World) : Prop :=
  (∀ id, CarriesCorrelation id w.resp → CarriesCorrelation id w1.resp) ∧
    ∃ evs, w1.trace = w.trace ++ evs

/-- A computation every run of which is a `Step`, however it ends. -/
def Orderly {α : Type} (m : M α) : Prop := ∀ w, Step w (m w).world

/-- The world in which the resource handler of an `/api` route starts when the pipeline
was entered in world `w` and the limiter admitted the request: the pre-phases of
Logging and Metrics and the admission check are done, in this order. -/
def admittedEntry (r : Request) (w : World) : World :=
  { w with
    uuidCalls := w.uuidCalls + 1
    clockCalls := w.clockCalls + 3
    cells := w.cells ++ [200, 200]
    limiter := (w.limiter.allow (w.clock (w.clockCalls + 2))).1
    resp := { w.resp with header := w.resp.header.Set "X-Correlation-ID" (w.uuids w.uuidCalls) }
    trace := w.trace ++ [.uuid (w.uuids w.uuidCalls), .now (w.clock w.clockCalls),
      startedRecord r (w.uuids w.uuidCalls), .now (w.clock (w.clockCalls + 1)),
      .now (w.clock (w.clockCalls + 2)), .allow true] }

/-- The world in which the handler of `MetricsMiddleware(handler)` starts when the
middleware was entered in world `w`. -/
def metricsEntry (w : World) : World :=
  { w with
    clockCalls := w.clockCalls + 1
    cells := w.cells ++ [200]
    trace := w.trace ++ [.now (w.clock w.clockCalls)] }

/-- Why the computation stopped early, if it did. -/
def Res.reason {α : Type} : Res α → Option Abort
  | .ok _ _ => none
  | .abort e _ => some e

/-- What `main` logs before it waits for the termination signal. -/
def startupRecords (env : Env) : List Event :=
  [.log .info [.str "Configuration loaded", .str "port", .str env.port, .str "db_host", .str env.dbHost],
   .log .info [.str "Database connection established"],
   .log .info [.str "Skipping automatic migrations - table should be created manually"],
   .log .info [.str "Server starting", .str "port", .str env.port]]

/-- The database statements issued in a trace, in order. -/
def dbStatements (trace : List Event) : List (String × List Value) :=
  trace.filterMap fun e => match e with | .dbExec stmt args => some (stmt, args) | _ => none

/-- What `INSERT INTO users (name, email, ...) VALUES ($1, $2, ...) RETURNING id, name,
email, ...` means for the database: a row that comes back holds the name and the email
the statement was given. -/
def ReturnsInserted (db : Database) : Prop :=
  ∀ name email user, db.insert name email = .ok user → user.Name = name ∧ user.Email = email

/-- The `statusCode` cells after `WriteHeader(code)` went through the writer: every
wrapper on the way to the connection has recorded the code. -/
def recordStatus : ResponseWriter → Int → List Int → List Int
  | .conn, _, cells => cells
  | .responseWriter cell inner, code, cells => recordStatus inner code (cells.set cell code)

/-- A computation that never panics and never exits. -/
def Returns {α : Type} (m : M α) : Prop := ∀ w, (m w).returned = true

/-- The request context holds a string under the key "correlation_id". -/
def HasCorrelation (r : Request) : Prop := ∃ id, r.Value "correlation_id" = some (.str id)

/-- The three handlers of `users.go`. -/
def IsUserHandler (h : Handler) : Prop := h = GetUsers ∨ h = CreateUser ∨ h = GetUser

/-- The response `RateLimitMiddleware` gives to a request it rejects:
`http.Error(w, "Rate limit exceeded", http.StatusTooManyRequests)` on a response not yet
started. -/
def rejectedResponse : Response :=
  { header := Header.Set (Header.Set [] "Content-Type" "text/plain; charset=utf-8")
      "X-Content-Type-Options" "nosniff"
    wroteHeader := true
    status := 429
    sentHeader := Header.Set (Header.Set [] "Content-Type" "text/plain; charset=utf-8")
      "X-Content-Type-Options" "nosniff"
    informational := []
    body := [.text "Rate limit exceeded\n"] }

/-- A computation whose effect on the response, and whether it returns, depend on the
response it starts from and on nothing else in the world. -/
def RespOnly (m : M Unit) : Prop :=
  ∀ w w1, w.resp = w1.resp →
    (m w).world.resp = (m w1).world.resp ∧ (m w).returned = (m w1).returned

/-! ## Sample inputs -/

/-- A database that answers every call successfully. -/
def sampleDb : Database :=
  { ping := none
    selectAll := .ok []
    insert := fun name email => .ok { ID := 1, Name := name, Email := email, CreatedAt := 0, UpdatedAt := 0 }
    selectOne := fun _ => .error .noRows }

/-- A world at process start whose clock advances one millisecond per reading. -/
def sampleWorld : World :=
  { trace := [], uuids := fun n => "uuid-" ++ toString n, uuidCalls := 0,
    clock := fun n => 1000000 * n, clockCalls := 0,
    limiter := limiter, cells := [], resp := freshResponse, db := sampleDb }

/-- The sample world with a stopped clock: every reading is the same instant. -/
def instantWorld : World := { sampleWorld with clock := fun _ => 5000000000 }

/-- The sample world with an empty bucket and a stopped clock. -/
def drainedWorld : World :=
  { instantWorld with limiter := { limiter with tokens := 0, last := 5000000000 } }

/-- `GET /api/users`. -/
def sampleRequest : Request :=
  { method := "GET", path := "/api/users", remoteAddr := "10.0.0.7:51234", userAgent := "curl/8.5.0",
    ctx := [], vars := [], body := .invalid "EOF" }

/-- `GET /health`. -/
def healthRequest : Request := { sampleRequest with path := "/health" }

/-- `GET /ready`. -/
def readyRequest : Request := { sampleRequest with path := "/ready" }

/-- `GET /metrics`. -/
def metricsRequest : Request := { sampleRequest with path := "/metrics" }

/-- A handler that answers 200 with a short text body. -/
def okHandler : Handler := handlerOf fun _ => [.write (.text "ok")]

/-- A handler that panics before writing anything. -/
def panicHandler : Handler := handlerOf fun _ => [.panic "boom"]

/-- A handler that answers with the given status and nothing else. -/
def statusHandler (code : Int) : Handler := handlerOf fun _ => [.writeHeader code]

/-- An environment in which the database connects, the listener binds, and shutdown
ends in `err`. -/
def sampleEnv (err : Option String) : Env :=
  { port := "8080", dbHost := "localhost", dbErr := none, listenErr := none, shutdownErr := err }

/-- The sample world with a database that cannot be reached. -/
def unreachableWorld : World :=
  { sampleWorld with db := { sampleDb with ping := some "connection refused" } }

/-- `POST /api/users` with a well-formed body, as `LoggingMiddleware` passes it on. -/
def createRequest : Request :=
  { sampleRequest with
    method := "POST"
    ctx := [("correlation_id", .str "test-correlation-id")]
    body := .request { Name := "John Doe", Email := "john@example.com" } }

/-! ## Evaluation lemmas -/

@[simp] theorem M.pure_apply {α : Type} (a : α) (w : World) : (pure a : M α) w = .ok a w := rfl

@[simp] theorem M.bind_apply {α β : Type} (m : M α) (f : α → M β) (w : World) :
    (m >>= f) w = match m w with
      | .ok a w1 => f a w1
      | .abort e w1 => .abort e w1 := rfl

theorem Itoa_429 : Itoa 429 = "429" := by decide

theorem getElem_append_fst (l : List Int) (a b : Int) (h : l.length < (l ++ [a, b]).length) :
    (l ++ [a, b])[l.length] = a := by
  rw [List.getElem_append_right (by simp)]; simp

theorem getElem_append_snd (l : List Int) (a b : Int)
    (h : l.length + 1 < (l ++ [a, b]).length) : (l ++ [a, b])[l.length + 1] = b := by
  rw [List.getElem_append_right (by simp)]; simp

/-! ## Rejected requests -/

/-- C1: a request the limiter denies is answered 429 by the pipeline
`LoggingMiddleware(MetricsMiddleware(RateLimitMiddleware(handler)))` whatever the resource
handler is (the outcome is the same world for every handler, so the handler is never
run), and the effects of the request are exactly: the "Request started" record, the
denied admission check, the 429 response, the counter increment labelled "429" with the
duration observation, and the "Request completed" record with status_code 429. -/
theorem rejected_request_is_observed (r : Request) (w : World)
    (hdenied : (w.limiter.allow (w.clock (w.clockCalls + 2))).2 = false) :
    ∃ w1, (∀ next : Handler,
        apiPipeline next .conn r { w with resp := freshResponse } = .ok () w1) ∧
      w1.resp.sentStatus = some StatusTooManyRequests ∧
      w1.trace = w.trace ++
        [.uuid (w.uuids w.uuidCalls), .now (w.clock w.clockCalls),
         startedRecord r (w.uuids w.uuidCalls),
         .now (w.clock (w.clockCalls + 1)), .now (w.clock (w.clockCalls + 2)), .allow false,
         .sendHeader 429, .sendBody (.text "Rate limit exceeded\n"),
         .now (w.clock (w.clockCalls + 3)),
         .counterInc [r.method, r.path, "429"],
         .histObserve [r.method, r.path] (w.clock (w.clockCalls + 3) - w.clock (w.clockCalls + 1)),
         .now (w.clock (w.clockCalls + 4)),
         completedRecord r 429 ((w.clock (w.clockCalls + 4) - w.clock w.clockCalls) / 1000000)
           (w.uuids w.uuidCalls)] := by
  refine ⟨(apiPipeline (fun _ _ => pure ()) .conn r { w with resp := freshResponse }).world,
    fun next => ?_, ?_, ?_⟩ <;>
  simp [apiPipeline, LoggingMiddleware, MetricsMiddleware, RateLimitMiddleware, uuidNewString, timeNow,
    timeSince, loggerInfo, emit, newResponseWriter, ResponseWriter.HeaderSet, connHeaderSet,
    limiterAllow, hdenied, httpError, ResponseWriter.WriteHeader, ResponseWriter.Write, connWrite,
    connWriteHeader, setStatusCode, getStatusCode, ResponseWriter.statusCode, freshResponse,
    StatusOK, StatusTooManyRequests, Request.WithValue, startedRecord, completedRecord,
    Response.sentStatus, Res.world, getElem_append_fst, getElem_append_snd, Itoa_429]

/-- Witness for C1: the drained bucket denies the sample request. -/
theorem rejected_request_is_observed_witness :
    ∃ w1, apiPipeline okHandler .conn sampleRequest { drainedWorld with resp := freshResponse }
        = .ok () w1 ∧
      w1.resp.sentStatus = some 429 ∧ handlerCalls w1.trace = 0 := by
  obtain ⟨w1, h1, h2, h3⟩ := rejected_request_is_observed sampleRequest drainedWorld (by decide)
  exact ⟨w1, h1 okHandler, h2, by rw [h3]; decide⟩

/-! ## The token bucket at one instant -/

theorem allow_of_holdsAt_succ (b : TokenBucket) (k t : Nat) (h : HoldsAt b (k + 1) t) :
    (b.allow t).2 = true ∧ HoldsAt (b.allow t).1 k t ∧ (b.allow t).1.burst = b.burst ∧
      (b.allow t).1.rate = b.rate := by
  obtain ⟨htok, hk, hlast, hfull⟩ := h
  have hav : min ((b.burst : Int) * tokenUnit)
      (b.tokens + ((t : Int) - (b.last : Int)) * (b.rate : Int)) = ((k : Int) + 1) * tokenUnit := by
    rcases Nat.lt_or_ge b.last t with hlt | hge
    · have hb := hfull hlt
      have he : (0 : Int) ≤ ((t : Int) - (b.last : Int)) * (b.rate : Int) :=
        mul_nonneg (by omega) (by omega)
      rw [htok, ← hb]; push_cast
      exact min_eq_left (by linarith)
    · have heq : b.last = t := le_antisymm hlast hge
      have hkb : ((k : Int) + 1) * tokenUnit ≤ (b.burst : Int) * tokenUnit := by
        have : ((k : Int) + 1) ≤ (b.burst : Int) := by exact_mod_cast hk
        exact mul_le_mul_of_nonneg_right this (by unfold tokenUnit; norm_num)
      rw [htok, heq]; push_cast
      simp only [sub_self, zero_mul, add_zero]
      exact min_eq_right hkb
  have hge1 : tokenUnit ≤ ((k : Int) + 1) * tokenUnit := by
    have : (0 : Int) ≤ (k : Int) * tokenUnit := mul_nonneg (by omega) (by unfold tokenUnit; norm_num)
    linarith
  simp only [TokenBucket.allow, hav, hge1, if_true, true_and]
  refine ⟨⟨by ring, ?_, le_refl _, fun h => absurd h (lt_irrefl _)⟩, trivial⟩
  show k ≤ b.burst
  omega

theorem allow_of_holdsAt_zero (b : TokenBucket) (t : Nat) (h : HoldsAt b 0 t) :
    b.allow t = (b, false) := by
  obtain ⟨htok, hk, hlast, hfull⟩ := h
  have hav : min ((b.burst : Int) * tokenUnit)
      (b.tokens + ((t : Int) - (b.last : Int)) * (b.rate : Int)) = 0 := by
    rcases Nat.lt_or_ge b.last t with hlt | hge
    · have hb := hfull hlt
      have he : (0 : Int) ≤ ((t : Int) - (b.last : Int)) * (b.rate : Int) :=
        mul_nonneg (by omega) (by omega)
      rw [htok, ← hb]; push_cast
      simp only [zero_mul, zero_add]
      exact min_eq_left he
    · have heq : b.last = t := le_antisymm hlast hge
      rw [htok, heq]; push_cast
      simp only [sub_self, zero_mul, add_zero]
      exact min_eq_right (mul_nonneg (by omega) (by unfold tokenUnit; norm_num))
  have hlt : ¬ tokenUnit ≤ (0 : Int) := by unfold tokenUnit; norm_num
  simp only [TokenBucket.allow, hav, hlt, if_false]

/-- Number of allowed checks among `n` checks at the instant `t`. -/
theorem allowSeq_same_instant (n : Nat) : ∀ (b : TokenBucket) (k t : Nat), HoldsAt b k t →
    ((allowSeq b (List.replicate n t)).map Prod.fst).count true = min n k := by
  induction n with
  | zero => intro b k t _; simp [allowSeq]
  | succ n ih =>
    intro b k t h
    cases k with
    | zero =>
      have h0 := allow_of_holdsAt_zero b t h
      have := ih b 0 t h
      simp only [List.replicate_succ, allowSeq, h0, List.map_cons, Nat.min_zero] at this ⊢
      simpa using this
    | succ k =>
      obtain ⟨ha, hh, _, _⟩ := allow_of_holdsAt_succ b k t h
      have := ih (b.allow t).1 k t hh
      simp only [List.replicate_succ, allowSeq, ha, List.map_cons, List.count_cons_self, this]
      omega

/-! ## Fifteen requests at one instant -/

theorem serve_eq (h : Handler) (r : Request) (w : World) :
    serve h r w = ((h .conn r >>= fun _ => finishRequest) { w with resp := freshResponse }).world := by
  unfold serve
  cases hres : (do h .conn r; finishRequest : M Unit) { w with resp := freshResponse } with
  | ok a w1 =>
      have : ((h .conn r >>= fun _ => finishRequest) { w with resp := freshResponse }) = .ok a w1 := hres
      simp [this, Res.world]
  | abort e w1 =>
      have : ((h .conn r >>= fun _ => finishRequest) { w with resp := freshResponse }) = .abort e w1 := hres
      simp [this, Res.world]

@[simp] theorem handlerCalls_append (a b : List Event) :
    handlerCalls (a ++ b) = handlerCalls a + handlerCalls b := by
  simp [handlerCalls]

theorem sameAdmission_refl (w : World) : SameAdmission w w := ⟨rfl, rfl, rfl, rfl⟩

theorem sameAdmission_trans {w w1 w2 : World} (h1 : SameAdmission w w1) (h2 : SameAdmission w1 w2) :
    SameAdmission w w2 :=
  ⟨h2.1.trans h1.1, h2.2.1.trans h1.2.1, h2.2.2.1.trans h1.2.2.1, h2.2.2.2.trans h1.2.2.2⟩

theorem sameAdmission_bind {α β : Type} (m : M α) (f : α → M β) (w : World)
    (h1 : SameAdmission w (m w).world) (h2 : ∀ a w1, SameAdmission w1 (f a w1).world) :
    SameAdmission w ((m >>= f) w).world := by
  rw [M.bind_apply]
  cases hm : m w with
  | ok a w1 => rw [hm] at h1; exact sameAdmission_trans h1 (h2 a w1)
  | abort e w1 => rw [hm] at h1; exact h1

theorem connWriteHeader_sameAdmission (code : Int) (w : World) :
    SameAdmission w (connWriteHeader code w).world := by
  unfold connWriteHeader
  split_ifs <;> simp [SameAdmission, Res.world, handlerCalls]

theorem connWrite_sameAdmission (p : Payload) (w : World) :
    SameAdmission w (connWrite p w).world := by
  unfold connWrite
  refine sameAdmission_bind _ _ w (connWriteHeader_sameAdmission 200 w) ?_
  intro _ w1
  simp [SameAdmission, Res.world, handlerCalls]

theorem runOps_conn_sameAdmission (ops : List Op) :
    ∀ w, SameAdmission w (runOps .conn ops w).world := by
  induction ops with
  | nil => intro w; exact sameAdmission_refl w
  | cons op ops ih =>
    intro w
    cases op with
    | setHeader k v =>
        refine sameAdmission_bind _ _ w ?_ (fun _ w1 => ih w1)
        simp [ResponseWriter.HeaderSet, connHeaderSet, SameAdmission, Res.world]
    | writeHeader code =>
        exact sameAdmission_bind _ _ w (connWriteHeader_sameAdmission code w) (fun _ w1 => ih w1)
    | write p =>
        exact sameAdmission_bind _ _ w (connWrite_sameAdmission p w) (fun _ w1 => ih w1)
    | log level args =>
        refine sameAdmission_bind _ _ w ?_ (fun _ w1 => ih w1)
        simp [emit, SameAdmission, Res.world, handlerCalls]
    | panic msg => exact sameAdmission_refl w

theorem serve_rateLimit_allowed (b : Request → List Op) (r : Request) (w : World)
    (h : (w.limiter.allow (w.clock w.clockCalls)).2 = true) :
    (serve (RateLimitMiddleware (handlerOf b)) r w).clock = w.clock ∧
    (serve (RateLimitMiddleware (handlerOf b)) r w).limiter = (w.limiter.allow (w.clock w.clockCalls)).1 ∧
    handlerCalls (serve (RateLimitMiddleware (handlerOf b)) r w).trace = handlerCalls w.trace + 1 := by
  have hrun : ((RateLimitMiddleware (handlerOf b) .conn r >>= fun _ => finishRequest)
        { w with resp := freshResponse }) =
      ((runOps .conn (b r) >>= fun _ => finishRequest)
        { w with resp := freshResponse, clockCalls := w.clockCalls + 1,
                 limiter := (w.limiter.allow (w.clock w.clockCalls)).1,
                 trace := w.trace ++ [.now (w.clock w.clockCalls)] ++ [.allow true] ++ [.handler r] }) := by
    simp [RateLimitMiddleware, limiterAllow, timeNow, h, handlerOf, emit]
  have hframe := sameAdmission_bind (runOps .conn (b r)) (fun _ => finishRequest)
    { w with resp := freshResponse, clockCalls := w.clockCalls + 1,
             limiter := (w.limiter.allow (w.clock w.clockCalls)).1,
             trace := w.trace ++ [.now (w.clock w.clockCalls)] ++ [.allow true] ++ [.handler r] }
    (runOps_conn_sameAdmission _ _) (fun _ w1 => connWriteHeader_sameAdmission 200 w1)
  rw [serve_eq, hrun]
  obtain ⟨h1, _, h3, h4⟩ := hframe
  refine ⟨h1, h3, ?_⟩
  rw [h4]
  simp [handlerCalls]

theorem serve_rateLimit_denied (b : Request → List Op) (r : Request) (w : World)
    (h : (w.limiter.allow (w.clock w.clockCalls)).2 = false) :
    (serve (RateLimitMiddleware (handlerOf b)) r w).clock = w.clock ∧
    (serve (RateLimitMiddleware (handlerOf b)) r w).limiter = (w.limiter.allow (w.clock w.clockCalls)).1 ∧
    handlerCalls (serve (RateLimitMiddleware (handlerOf b)) r w).trace = handlerCalls w.trace ∧
    (serve (RateLimitMiddleware (handlerOf b)) r w).resp.sentStatus = some 429 := by
  rw [serve_eq]
  simp [RateLimitMiddleware, limiterAllow, timeNow, h, httpError, ResponseWriter.HeaderSet,
    connHeaderSet, ResponseWriter.WriteHeader, ResponseWriter.Write, connWrite, connWriteHeader,
    finishRequest, freshResponse, StatusTooManyRequests, Res.world, Response.sentStatus, handlerCalls]

/-- Requests served at one instant `t` from a bucket holding `k` tokens: `min n k` of
them enter the handler, and every response after the first `k` is the limiter's 429. -/
theorem serveAll_same_instant (b : Request → List Op) (t : Nat) :
    ∀ (rs : List Request) (w : World) (k : Nat), (∀ n, w.clock n = t) → HoldsAt w.limiter k t →
      handlerCalls (serveAll (RateLimitMiddleware (handlerOf b)) rs w).2.trace
        = handlerCalls w.trace + min rs.length k ∧
      (serveAll (RateLimitMiddleware (handlerOf b)) rs w).1.length = rs.length ∧
      ∀ resp ∈ (serveAll (RateLimitMiddleware (handlerOf b)) rs w).1.drop k,
        resp.sentStatus = some 429 := by
  intro rs
  induction rs with
  | nil => intro w k _ _; simp [serveAll]
  | cons r rs ih =>
    intro w k hclock hholds
    have hnow : w.clock w.clockCalls = t := hclock _
    cases k with
    | zero =>
      have h0 := allow_of_holdsAt_zero w.limiter t hholds
      have hden : (w.limiter.allow (w.clock w.clockCalls)).2 = false := by rw [hnow, h0]
      obtain ⟨hc, hl, hh, hs⟩ := serve_rateLimit_denied b r w hden
      have hl1 : (serve (RateLimitMiddleware (handlerOf b)) r w).limiter = w.limiter := by
        rw [hl, hnow, h0]
      obtain ⟨i1, i2, i3⟩ := ih (serve (RateLimitMiddleware (handlerOf b)) r w) 0
        (fun n => by rw [hc]; exact hclock n) (by rw [hl1]; exact hholds)
      refine ⟨?_, ?_, ?_⟩
      · simp only [serveAll, i1, hh, List.length_cons, Nat.min_zero]
      · simp only [serveAll, i2, List.length_cons]
      · intro resp hmem
        simp only [serveAll, List.drop_zero, List.mem_cons] at hmem
        rcases hmem with rfl | hmem
        · exact hs
        · exact i3 resp (by simpa using hmem)
    | succ k =>
      obtain ⟨ha, hh, _, _⟩ := allow_of_holdsAt_succ w.limiter k t hholds
      have hall : (w.limiter.allow (w.clock w.clockCalls)).2 = true := by rw [hnow, ha]
      obtain ⟨hc, hl, hcalls⟩ := serve_rateLimit_allowed b r w hall
      obtain ⟨i1, i2, i3⟩ := ih (serve (RateLimitMiddleware (handlerOf b)) r w) k
        (fun n => by rw [hc]; exact hclock n) (by rw [hl, hnow]; exact hh)
      refine ⟨?_, ?_, ?_⟩
      · simp only [serveAll, i1, hcalls, List.length_cons]
        omega
      · simp only [serveAll, i2, List.length_cons]
      · intro resp hmem
        simp only [serveAll, List.drop_succ_cons] at hmem
        exact i3 resp hmem

theorem respOnly_bind {m : M Unit} {f : Unit → M Unit} (hm : RespOnly m)
    (hf : ∀ a, RespOnly (f a)) : RespOnly (m >>= f) := by
  intro w w1 h
  obtain ⟨hr, hret⟩ := hm w w1 h
  rw [M.bind_apply, M.bind_apply]
  cases h1 : m w with
  | ok a v =>
    cases h2 : m w1 with
    | ok a1 v1 =>
        rw [h1, h2] at hr
        exact hf a v v1 hr
    | abort e1 v1 =>
        rw [h1, h2] at hret
        exact absurd hret (by simp [Res.returned])
  | abort e v =>
    cases h2 : m w1 with
    | ok a1 v1 =>
        rw [h1, h2] at hret
        exact absurd hret (by simp [Res.returned])
    | abort e1 v1 =>
        rw [h1, h2] at hr
        exact ⟨hr, rfl⟩

theorem respOnly_connHeaderSet (k v : String) : RespOnly (connHeaderSet k v) := by
  intro w w1 h
  simp [connHeaderSet, Res.world, Res.returned, h]

theorem respOnly_connWriteHeader (code : Int) : RespOnly (connWriteHeader code) := by
  intro w w1 h
  unfold connWriteHeader
  rw [h]
  split_ifs <;> simp [Res.world, Res.returned, h]

theorem respOnly_connWrite (p : Payload) : RespOnly (connWrite p) :=
  respOnly_bind (respOnly_connWriteHeader 200) fun _ w w1 h => by
    simp [Res.world, Res.returned, h]

theorem respOnly_emit (e : Event) : RespOnly (emit e) := by
  intro w w1 h
  simp [emit, Res.world, Res.returned, h]

theorem respOnly_runOps_conn (ops : List Op) : RespOnly (runOps .conn ops) := by
  induction ops with
  | nil => intro w w1 h; exact ⟨h, rfl⟩
  | cons op ops ih =>
    cases op with
    | setHeader k v => exact respOnly_bind (respOnly_connHeaderSet k v) fun _ => ih
    | writeHeader code => exact respOnly_bind (respOnly_connWriteHeader code) fun _ => ih
    | write p => exact respOnly_bind (respOnly_connWrite p) fun _ => ih
    | log level args => exact respOnly_bind (respOnly_emit _) fun _ => ih
    | panic msg => intro w w1 h; exact ⟨h, rfl⟩

/-- An admitted request gets the response the handler alone would give: the middleware
adds nothing to it. -/
theorem serve_rateLimit_allowed_resp (b : Request → List Op) (r : Request) (w w0 : World)
    (h : (w.limiter.allow (w.clock w.clockCalls)).2 = true) :
    (serve (RateLimitMiddleware (handlerOf b)) r w).resp = (serve (handlerOf b) r w0).resp := by
  have hrun : ((RateLimitMiddleware (handlerOf b) .conn r >>= fun _ => finishRequest)
        { w with resp := freshResponse }) =
      ((runOps .conn (b r) >>= fun _ => finishRequest)
        { w with resp := freshResponse, clockCalls := w.clockCalls + 1,
                 limiter := (w.limiter.allow (w.clock w.clockCalls)).1,
                 trace := w.trace ++ [.now (w.clock w.clockCalls)] ++ [.allow true] ++ [.handler r] }) := by
    simp [RateLimitMiddleware, limiterAllow, timeNow, h, handlerOf, emit]
  have hrun0 : ((handlerOf b .conn r >>= fun _ => finishRequest)
        { w0 with resp := freshResponse }) =
      ((runOps .conn (b r) >>= fun _ => finishRequest)
        { w0 with resp := freshResponse, trace := w0.trace ++ [.handler r] }) := by
    simp [handlerOf, emit]
  rw [serve_eq, serve_eq, hrun, hrun0]
  have hro : RespOnly (runOps .conn (b r) >>= fun _ => finishRequest) :=
    respOnly_bind (respOnly_runOps_conn (b r)) (fun _ => respOnly_connWriteHeader 200)
  refine (hro _ _ ?_).1
  rfl

/-- A rejected request gets the fixed rejection response. -/
theorem serve_rateLimit_denied_resp (b : Request → List Op) (r : Request) (w : World)
    (h : (w.limiter.allow (w.clock w.clockCalls)).2 = false) :
    (serve (RateLimitMiddleware (handlerOf b)) r w).resp = rejectedResponse := by
  rw [serve_eq]
  simp [RateLimitMiddleware, limiterAllow, timeNow, h, httpError, ResponseWriter.HeaderSet,
    connHeaderSet, ResponseWriter.WriteHeader, ResponseWriter.Write, connWrite, connWriteHeader,
    finishRequest, freshResponse, StatusTooManyRequests, Res.world, rejectedResponse]

/-- The responses of requests served at one instant `t` from a bucket holding `k`
tokens: the first `k` are the handler's own, the others are the rejection response. -/
theorem serveAll_same_instant_resps (b : Request → List Op) (t : Nat) (w0 : World) :
    ∀ (rs : List Request) (w : World) (k : Nat), (∀ n, w.clock n = t) → HoldsAt w.limiter k t →
      (serveAll (RateLimitMiddleware (handlerOf b)) rs w).1
        = (rs.take k).map (fun r => (serve (handlerOf b) r w0).resp)
          ++ List.replicate (rs.length - k) rejectedResponse := by
  intro rs
  induction rs with
  | nil => intro w k _ _; simp [serveAll]
  | cons r rs ih =>
    intro w k hclock hholds
    have hnow : w.clock w.clockCalls = t := hclock _
    cases k with
    | zero =>
      have h0 := allow_of_holdsAt_zero w.limiter t hholds
      have hden : (w.limiter.allow (w.clock w.clockCalls)).2 = false := by rw [hnow, h0]
      obtain ⟨hc, hl, _, _⟩ := serve_rateLimit_denied b r w hden
      have hl1 : (serve (RateLimitMiddleware (handlerOf b)) r w).limiter = w.limiter := by
        rw [hl, hnow, h0]
      have i1 := ih (serve (RateLimitMiddleware (handlerOf b)) r w) 0
        (fun n => by rw [hc]; exact hclock n) (by rw [hl1]; exact hholds)
      simp only [serveAll, i1, serve_rateLimit_denied_resp b r w hden, List.take_zero, List.map_nil,
        List.nil_append, List.length_cons, Nat.sub_zero, List.replicate_succ]
    | succ k =>
      obtain ⟨ha, hh, _, _⟩ := allow_of_holdsAt_succ w.limiter k t hholds
      have hall : (w.limiter.allow (w.clock w.clockCalls)).2 = true := by rw [hnow, ha]
      obtain ⟨hc, hl, _⟩ := serve_rateLimit_allowed b r w hall
      have i1 := ih (serve (RateLimitMiddleware (handlerOf b)) r w) k
        (fun n => by rw [hc]; exact hclock n) (by rw [hl, hnow]; exact hh)
      simp only [serveAll, i1, serve_rateLimit_allowed_resp b r w w0 hall, List.take_succ_cons,
        List.map_cons, List.cons_append, List.length_cons, Nat.add_sub_add_right]

theorem holdsAt_of_full (b : TokenBucket) (t : Nat) (hfull : b.tokens = (b.burst : Int) * tokenUnit)
    (hlast : b.last ≤ t) : HoldsAt b b.burst t :=
  ⟨hfull, le_refl _, hlast, fun _ => rfl⟩

/-- C2: from a full bucket, `n` admission checks at one instant allow exactly
`min n B` requests, hence at most `B`; and with the configured limiter (rate 100/s,
burst 10) fifteen requests served at one instant through `RateLimitMiddleware` enter the
next handler exactly ten times: the first ten responses are exactly what the handler
alone answers to these requests (status passed through), the remaining five are the
rejection response with status 429, so that exactly five responses carry 429 unless the
handler itself answers 429. -/
theorem burst_bounds_admissions :
    (∀ (b : TokenBucket) (n t : Nat), b.tokens = (b.burst : Int) * tokenUnit → b.last ≤ t →
      ((allowSeq b (List.replicate n t)).map Prod.fst).count true = min n b.burst ∧
      ((allowSeq b (List.replicate n t)).map Prod.fst).count true ≤ b.burst) ∧
    (∀ (b : Request → List Op) (rs : List Request) (w : World) (t : Nat),
      rs.length = 15 → w.limiter = limiter → (∀ n, w.clock n = t) →
      handlerCalls (serveAll (RateLimitMiddleware (handlerOf b)) rs w).2.trace
        = handlerCalls w.trace + 10 ∧
      ((serveAll (RateLimitMiddleware (handlerOf b)) rs w).1.drop 10).length = 5 ∧
      (∀ resp ∈ (serveAll (RateLimitMiddleware (handlerOf b)) rs w).1.drop 10,
        resp.sentStatus = some StatusTooManyRequests) ∧
      (serveAll (RateLimitMiddleware (handlerOf b)) rs w).1
        = (rs.take 10).map (fun r => (serve (handlerOf b) r w).resp)
          ++ List.replicate 5 rejectedResponse ∧
      rejectedResponse.sentStatus = some StatusTooManyRequests ∧
      ((∀ r ∈ rs, (serve (handlerOf b) r w).resp.sentStatus ≠ some StatusTooManyRequests) →
        ((serveAll (RateLimitMiddleware (handlerOf b)) rs w).1.filter
          (fun resp => decide (resp.sentStatus = some StatusTooManyRequests))).length = 5)) := by
  constructor
  · intro b n t hfull hlast
    have h := allowSeq_same_instant n b b.burst t (holdsAt_of_full b t hfull hlast)
    exact ⟨h, by rw [h]; exact Nat.min_le_right _ _⟩
  · intro b rs w t hlen hlim hclock
    have hholds : HoldsAt w.limiter 10 t := by
      rw [hlim]
      exact holdsAt_of_full limiter t rfl (Nat.zero_le t)
    obtain ⟨h1, h2, h3⟩ := serveAll_same_instant b t rs w 10 hclock hholds
    have h4 := serveAll_same_instant_resps b t w rs w 10 hclock hholds
    rw [hlen] at h4
    have hrej : rejectedResponse.sentStatus = some StatusTooManyRequests := rfl
    refine ⟨by rw [h1, hlen]; rfl, by rw [List.length_drop, h2, hlen], h3, h4, hrej, ?_⟩
    intro hnot
    rw [h4, List.filter_append]
    have hleft : ((rs.take 10).map (fun r => (serve (handlerOf b) r w).resp)).filter
        (fun resp => decide (resp.sentStatus = some StatusTooManyRequests)) = [] := by
      rw [List.filter_eq_nil_iff]
      intro resp hmem
      obtain ⟨r, hr, rfl⟩ := List.mem_map.mp hmem
      simpa using hnot r (List.mem_of_mem_take hr)
    have hright : (List.replicate 5 rejectedResponse).filter
        (fun resp => decide (resp.sentStatus = some StatusTooManyRequests))
          = List.replicate 5 rejectedResponse := by
      rw [List.filter_eq_self]
      intro resp hmem
      rw [List.eq_of_mem_replicate hmem]
      simpa using hrej
    rw [hleft, hright]
    rfl

/-- Witness for C2: the configured limiter is full, and the sample world with a stopped
clock serves fifteen sample requests: ten enter the handler and get its response, five
get the rejection response. -/
theorem burst_bounds_admissions_witness :
    ((allowSeq limiter (List.replicate 15 7)).map Prod.fst).count true = min 15 limiter.burst ∧
    handlerCalls (serveAll (RateLimitMiddleware (handlerOf fun _ => [.write (.text "ok")]))
        (List.replicate 15 sampleRequest) instantWorld).2.trace
      = handlerCalls instantWorld.trace + 10 ∧
    (serveAll (RateLimitMiddleware (handlerOf fun _ => [.write (.text "ok")]))
        (List.replicate 15 sampleRequest) instantWorld).1
      = ((List.replicate 15 sampleRequest).take 10).map
          (fun r => (serve (handlerOf fun _ => [.write (.text "ok")]) r instantWorld).resp)
        ++ List.replicate 5 rejectedResponse :=
  ⟨(burst_bounds_admissions.1 limiter 15 7 rfl (Nat.zero_le 7)).1,
   (burst_bounds_admissions.2 (fun _ => [.write (.text "ok")]) (List.replicate 15 sampleRequest)
      instantWorld 5000000000 (by simp) rfl (fun _ => rfl)).1,
   (burst_bounds_admissions.2 (fun _ => [.write (.text "ok")]) (List.replicate 15 sampleRequest)
      instantWorld 5000000000 (by simp) rfl (fun _ => rfl)).2.2.2.1⟩

/-! ## The status interceptor -/

theorem getD_set_self (l : List Int) (n : Nat) (c d : Int) (h : n < l.length) :
    (l.set n c).getD n d = c := by
  simp [List.getD_eq_getElem?_getD, h]

theorem getD_append_self (l : List Int) (c d : Int) : (l ++ [c]).getD l.length d = c := by
  simp [List.getD_eq_getElem?_getD]

theorem runOps_quiet (n : Nat) (ops : List Op) : quiet ops = true → ∀ w, Committed n w →
    ∃ w1, runOps (.responseWriter n .conn) ops w = .ok () w1 ∧ Committed n w1 := by
  induction ops with
  | nil => intro _ w hw; exact ⟨w, rfl, hw⟩
  | cons op ops ih =>
    intro hq w hw
    obtain ⟨hlen, hwrote, hstatus⟩ := hw
    cases op with
    | setHeader k v =>
        obtain ⟨w1, h1, h2⟩ := ih (by simpa [quiet] using hq)
          { w with resp := { w.resp with header := w.resp.header.Set k v } } ⟨hlen, hwrote, hstatus⟩
        exact ⟨w1, by simpa [runOps, ResponseWriter.HeaderSet, connHeaderSet] using h1, h2⟩
    | writeHeader code => simp [quiet] at hq
    | write p =>
        obtain ⟨w1, h1, h2⟩ := ih (by simpa [quiet] using hq)
          { w with resp := { w.resp with body := w.resp.body ++ [p] },
                   trace := w.trace ++ [.sendBody p] } ⟨hlen, hwrote, hstatus⟩
        exact ⟨w1, by simpa [runOps, ResponseWriter.Write, connWrite, connWriteHeader, hwrote] using h1, h2⟩
    | log level args =>
        obtain ⟨w1, h1, h2⟩ := ih (by simpa [quiet] using hq)
          { w with trace := w.trace ++ [.log level args] } ⟨hlen, hwrote, hstatus⟩
        exact ⟨w1, by simpa [runOps, emit] using h1, h2⟩
    | panic msg => simp [quiet] at hq

theorem runOps_disciplined (n : Nat) (ops : List Op) : disciplined ops = true → ∀ w, Pristine n w →
    ∃ w1, runOps (.responseWriter n .conn) ops w = .ok () w1 ∧ (Pristine n w1 ∨ Committed n w1) := by
  induction ops with
  | nil => intro _ w hw; exact ⟨w, rfl, Or.inl hw⟩
  | cons op ops ih =>
    intro hd w hw
    obtain ⟨hlen, hwrote, hcell⟩ := hw
    cases op with
    | setHeader k v =>
        obtain ⟨w1, h1, h2⟩ := ih (by simpa [disciplined] using hd)
          { w with resp := { w.resp with header := w.resp.header.Set k v } } ⟨hlen, hwrote, hcell⟩
        exact ⟨w1, by simpa [runOps, ResponseWriter.HeaderSet, connHeaderSet] using h1, h2⟩
    | writeHeader code =>
        simp only [disciplined, Bool.and_eq_true, decide_eq_true_eq] at hd
        obtain ⟨⟨hlo, hhi⟩, hq⟩ := hd
        have hvalid : ¬ (code < 100 ∨ code > 999) := by omega
        have hfinal : ¬ (100 ≤ code ∧ code ≤ 199 ∧ code ≠ 101) := by omega
        obtain ⟨w1, h1, h2⟩ := runOps_quiet n ops hq
          { w with cells := w.cells.set n code,
                   resp := { w.resp with wroteHeader := true, status := code, sentHeader := w.resp.header },
                   trace := w.trace ++ [.sendHeader code] }
          ⟨by simpa using hlen, rfl, (getD_set_self _ _ _ _ hlen).symm⟩
        refine ⟨w1, ?_, Or.inr h2⟩
        simpa [runOps, ResponseWriter.WriteHeader, setStatusCode, connWriteHeader, hwrote, hvalid,
          hfinal] using h1
    | write p =>
        obtain ⟨w1, h1, h2⟩ := runOps_quiet n ops (by simpa [disciplined] using hd)
          { w with resp := { w.resp with wroteHeader := true, status := 200, sentHeader := w.resp.header,
                                         body := w.resp.body ++ [p] },
                   trace := w.trace ++ [.sendHeader 200] ++ [.sendBody p] }
          ⟨hlen, rfl, hcell.symm⟩
        refine ⟨w1, ?_, Or.inr h2⟩
        simpa [runOps, ResponseWriter.Write, connWrite, connWriteHeader, hwrote] using h1
    | log level args =>
        obtain ⟨w1, h1, h2⟩ := ih (by simpa [disciplined] using hd)
          { w with trace := w.trace ++ [.log level args] } ⟨hlen, hwrote, hcell⟩
        exact ⟨w1, by simpa [runOps, emit] using h1, h2⟩
    | panic msg => simp [disciplined] at hd

/-- C3, counterexample: a handler that calls `WriteHeader(200)` and then
`WriteHeader(500)` leaves 500 in the wrapper while the client got 200; a handler that
writes body bytes and then calls `WriteHeader(404)` leaves 404 in the wrapper while the
client got 200. -/
theorem captured_status_differs_from_sent :
    observe [.writeHeader 200, .writeHeader 500] sampleWorld = some (500, some 200) ∧
    observe [.write (.text "chunk"), .writeHeader 404] sampleWorld = some (404, some 200) := by
  constructor <;> decide

/-- C3, amended: for a handler that does not panic and sets its status at most once,
with a final status code (200..999), before writing any body (or never sets it, where the
default 200 applies), the wrapper's `statusCode` after the handler returned equals the
status sent to the client. -/
theorem captured_status_equals_sent (ops : List Op) (w : World) (h : disciplined ops = true) :
    ∃ code, observe ops w = some (code, some code) := by
  obtain ⟨w1, h1, h2⟩ := runOps_disciplined w.cells.length ops h
    { w with resp := freshResponse, cells := w.cells ++ [200] }
    ⟨by simp, rfl, getD_append_self _ _ _⟩
  refine ⟨w1.cells.getD w.cells.length 0, ?_⟩
  rcases h2 with ⟨_, hwrote, hcell⟩ | ⟨_, hwrote, hstatus⟩
  · rw [List.getD_eq_getElem?_getD] at hcell
    simp [observe, newResponseWriter, StatusOK, h1, ResponseWriter.statusCode, getStatusCode,
      finishRequest, connWriteHeader, hwrote, Response.sentStatus, hcell]
  · simp [observe, newResponseWriter, StatusOK, h1, ResponseWriter.statusCode, getStatusCode,
      finishRequest, connWriteHeader, hwrote, Response.sentStatus, hstatus]

/-- Witness for C3: a handler that sets a header, answers 404 and writes a body. -/
theorem captured_status_equals_sent_witness :
    ∃ code, observe [.setHeader "Content-Type" "text/plain", .writeHeader 404,
        .write (.text "User not found\n")] sampleWorld = some (code, some code) :=
  captured_status_equals_sent _ sampleWorld (by decide)

/-! ## A handler that panics -/

/-- C4, counterexample: when the handler panics, `LoggingMiddleware(MetricsMiddleware(·))`
stops with that panic; the only log record is "Request started", and neither the counter
nor the histogram is touched. -/
theorem panic_skips_post_phase :
    (LoggingMiddleware (MetricsMiddleware panicHandler) .conn sampleRequest sampleWorld).returned = false ∧
    logRecords (LoggingMiddleware (MetricsMiddleware panicHandler) .conn sampleRequest sampleWorld).world.trace
      = [(.info, [.str "Request started", .str "method", .str "GET", .str "path", .str "/api/users",
          .str "remote_addr", .str "10.0.0.7:51234", .str "user_agent", .str "curl/8.5.0",
          .str "correlation_id", .str "uuid-0"])] ∧
    counterSeries (LoggingMiddleware (MetricsMiddleware panicHandler) .conn sampleRequest sampleWorld).world.trace = [] ∧
    histogramSeries (LoggingMiddleware (MetricsMiddleware panicHandler) .conn sampleRequest sampleWorld).world.trace = [] := by
  have hrun : LoggingMiddleware (MetricsMiddleware panicHandler) .conn sampleRequest sampleWorld
      = .abort (.panic "boom")
          { observedEntry sampleRequest sampleWorld with
            trace := (observedEntry sampleRequest sampleWorld).trace
              ++ [.handler (observedRequest sampleRequest sampleWorld)] } := by
    simp [LoggingMiddleware, MetricsMiddleware, panicHandler, handlerOf, runOps, goPanic, uuidNewString,
      timeNow, timeSince, loggerInfo, emit, newResponseWriter, ResponseWriter.HeaderSet, connHeaderSet,
      StatusOK, Request.WithValue, observedEntry, observedRequest, startedRecord]
  rw [hrun]
  refine ⟨rfl, ?_, ?_, ?_⟩ <;> decide

/-- C4, amended: the post-phases run exactly when the handler returns.  If the handler
returns (whatever status it reported), `MetricsMiddleware` then increments the counter
and observes the duration and `LoggingMiddleware` then emits "Request completed" with
the captured status and the correlation id; both wrappers start from the default 200.
If the handler panics, the panic passes through both wrappers and nothing is added to
what the handler left. -/
theorem post_phase_runs_iff_handler_returns (next : Handler) (r : Request) (w : World) :
    (observedEntry r w).cells = w.cells ++ [200, 200] ∧
    (∀ w2, next (observedWriter w) (observedRequest r w) (observedEntry r w) = .ok () w2 →
      ∃ w3, LoggingMiddleware (MetricsMiddleware next) .conn r w = .ok () w3 ∧
        w3.trace = w2.trace ++
          [.now (w2.clock w2.clockCalls),
           .counterInc [r.method, r.path, Itoa (w2.cells.getD (w.cells.length + 1) 0)],
           .histObserve [r.method, r.path] (w2.clock w2.clockCalls - w.clock (w.clockCalls + 1)),
           .now (w2.clock (w2.clockCalls + 1)),
           completedRecord r (w2.cells.getD w.cells.length 0)
             ((w2.clock (w2.clockCalls + 1) - w.clock w.clockCalls) / 1000000)
             (w.uuids w.uuidCalls)]) ∧
    (∀ e w2, next (observedWriter w) (observedRequest r w) (observedEntry r w) = .abort e w2 →
      LoggingMiddleware (MetricsMiddleware next) .conn r w = .abort e w2) := by
  refine ⟨rfl, ?_, ?_⟩
  · intro w2 h
    simp [LoggingMiddleware, MetricsMiddleware, uuidNewString, timeNow, timeSince, loggerInfo, emit,
      newResponseWriter, ResponseWriter.HeaderSet, connHeaderSet, StatusOK,
      ResponseWriter.statusCode, getStatusCode, completedRecord, Request.WithValue,
      observedEntry, observedWriter, observedRequest, startedRecord] at h ⊢
    simp [h]
  · intro e w2 h
    simp [LoggingMiddleware, MetricsMiddleware, uuidNewString, timeNow, timeSince, loggerInfo, emit,
      newResponseWriter, ResponseWriter.HeaderSet, connHeaderSet, StatusOK,
      ResponseWriter.statusCode, getStatusCode, completedRecord, Request.WithValue,
      observedEntry, observedWriter, observedRequest, startedRecord] at h ⊢
    simp [h]

theorem Res.eq_ok_of_returned (res : Res Unit) (h : res.returned = true) :
    res = .ok () res.world := by
  cases res with
  | ok a w => rfl
  | abort e w => simp [Res.returned] at h

/-- Witness for C4: a handler that returns, and one that panics. -/
theorem post_phase_runs_iff_handler_returns_witness :
    (∃ w3, LoggingMiddleware (MetricsMiddleware okHandler) .conn sampleRequest sampleWorld = .ok () w3) ∧
    LoggingMiddleware (MetricsMiddleware panicHandler) .conn sampleRequest sampleWorld
      = .abort (.panic "boom")
          { observedEntry sampleRequest sampleWorld with
            trace := (observedEntry sampleRequest sampleWorld).trace
              ++ [.handler (observedRequest sampleRequest sampleWorld)] } := by
  constructor
  · have hok : (okHandler (observedWriter sampleWorld) (observedRequest sampleRequest sampleWorld)
        (observedEntry sampleRequest sampleWorld)).returned = true := by
      simp [okHandler, handlerOf, runOps, emit, ResponseWriter.Write, connWrite, connWriteHeader,
        observedWriter, observedEntry, sampleWorld, freshResponse, Res.returned]
    obtain ⟨w3, h3, _⟩ := (post_phase_runs_iff_handler_returns okHandler sampleRequest sampleWorld).2.1
      _ (Res.eq_ok_of_returned _ hok)
    exact ⟨w3, h3⟩
  · exact (post_phase_runs_iff_handler_returns panicHandler sampleRequest sampleWorld).2.2 _ _
      (by simp [panicHandler, handlerOf, runOps, emit, goPanic])

/-! ## Computations that keep the correlation header and only extend the trace -/

theorem step_refl (w : World) : Step w w := ⟨fun _ h => h, [], by simp⟩

theorem step_trans {w w1 w2 : World} (h1 : Step w w1) (h2 : Step w1 w2) : Step w w2 := by
  obtain ⟨k1, e1, t1⟩ := h1
  obtain ⟨k2, e2, t2⟩ := h2
  exact ⟨fun id h => k2 id (k1 id h), e1 ++ e2, by rw [t2, t1, List.append_assoc]⟩

theorem step_of_same_resp {w w1 : World} (hr : w1.resp = w.resp)
    (ht : ∃ evs, w1.trace = w.trace ++ evs) : Step w w1 :=
  ⟨fun _ h => by rw [hr]; exact h, ht⟩

theorem orderly_pure {α : Type} (a : α) : Orderly (pure a : M α) := fun w => step_refl w

theorem orderly_bind {α β : Type} {m : M α} {f : α → M β} (hm : Orderly m)
    (hf : ∀ a, Orderly (f a)) : Orderly (m >>= f) := by
  intro w
  rw [M.bind_apply]
  have h1 := hm w
  cases hres : m w with
  | ok a w1 => rw [hres] at h1; exact step_trans h1 (hf a w1)
  | abort e w1 => rw [hres] at h1; exact h1

theorem orderly_emit (e : Event) : Orderly (emit e) :=
  fun _ => step_of_same_resp rfl ⟨[e], rfl⟩

theorem orderly_goPanic {α : Type} (msg : String) : Orderly (goPanic msg : M α) :=
  fun w => step_refl w

theorem orderly_timeNow : Orderly timeNow :=
  fun w => step_of_same_resp rfl ⟨[.now (w.clock w.clockCalls)], rfl⟩

theorem orderly_timeSince (start : Nat) : Orderly (timeSince start) :=
  orderly_bind orderly_timeNow fun _ => orderly_pure _

theorem orderly_loggerInfo (args : List Value) : Orderly (loggerInfo args) := orderly_emit _

theorem orderly_loggerError (args : List Value) : Orderly (loggerError args) := orderly_emit _

theorem orderly_dbPing : Orderly dbPing :=
  fun _ => step_of_same_resp rfl ⟨[.call "db.Ping"], rfl⟩

theorem orderly_dbSelectAll : Orderly dbSelectAll :=
  fun _ => step_of_same_resp rfl ⟨[.dbExec selectAllQuery []], rfl⟩

theorem orderly_dbInsert (name email : String) : Orderly (dbInsert name email) :=
  fun _ => step_of_same_resp rfl ⟨[.dbExec insertQuery [.str name, .str email]], rfl⟩

theorem orderly_dbSelectOne (id : Int) : Orderly (dbSelectOne id) :=
  fun _ => step_of_same_resp rfl ⟨[.dbExec selectOneQuery [.int id]], rfl⟩

theorem orderly_setStatusCode (cell : Nat) (code : Int) : Orderly (setStatusCode cell code) :=
  fun _ => step_of_same_resp rfl ⟨[], by simp [setStatusCode, Res.world]⟩

theorem orderly_getStatusCode (cell : Nat) : Orderly (getStatusCode cell) :=
  fun w => step_refl w

theorem orderly_newResponseWriter (inner : ResponseWriter) (code : Int) :
    Orderly (newResponseWriter inner code) :=
  fun _ => step_of_same_resp rfl ⟨[], by simp [newResponseWriter, Res.world]⟩

theorem orderly_limiterAllow : Orderly limiterAllow :=
  orderly_bind orderly_timeNow fun t w => step_of_same_resp rfl ⟨[.allow (w.limiter.allow t).2], rfl⟩

theorem orderly_assertString (v : Option Value) : Orderly (assertString v) := by
  cases v with
  | none => exact orderly_goPanic _
  | some x => cases x with
    | str s => exact orderly_pure s
    | int i => exact orderly_goPanic _

theorem lookup_filter_ne (h : Header) (ck key : String) (hne : key ≠ ck) :
    (h.filter (fun kv => kv.1 != ck)).lookup key = h.lookup key := by
  induction h with
  | nil => rfl
  | cons kv rest ih =>
    obtain ⟨a, b⟩ := kv
    by_cases hk : a = ck
    · subst hk
      have hkey : (key == a) = false := by simp [hne]
      simp [List.filter_cons, List.lookup, hkey, ih]
    · have hk1 : (a != ck) = true := by simp [hk]
      rw [List.filter_cons]
      simp only [hk1, if_true, List.lookup]
      cases hkey : key == a <;> simp [ih]

theorem Header.Get_Set_self (h : Header) (key value : String) :
    (h.Set key value).Get key = some value := by
  simp [Header.Get, Header.Set, List.lookup]

theorem Header.Get_Set_other (h : Header) (k v key : String)
    (hne : CanonicalMIMEHeaderKey k ≠ CanonicalMIMEHeaderKey key) :
    (h.Set k v).Get key = h.Get key := by
  have hbeq : (CanonicalMIMEHeaderKey key == CanonicalMIMEHeaderKey k) = false := by
    simp [Ne.symm hne]
  simp only [Header.Get, Header.Set, List.lookup, hbeq]
  exact lookup_filter_ne h _ _ (Ne.symm hne)

theorem orderly_connHeaderSet (k v : String)
    (hne : CanonicalMIMEHeaderKey k ≠ CanonicalMIMEHeaderKey "X-Correlation-ID") :
    Orderly (connHeaderSet k v) := by
  intro w
  refine ⟨?_, [], by simp [connHeaderSet, Res.world]⟩
  intro id hc
  obtain ⟨h1, h2⟩ := hc
  refine ⟨?_, h2⟩
  show (w.resp.header.Set k v).Get "X-Correlation-ID" = some id
  rw [Header.Get_Set_other _ _ _ _ hne]
  exact h1

theorem orderly_connWriteHeader (code : Int) : Orderly (connWriteHeader code) := by
  intro w
  unfold connWriteHeader
  split_ifs with h1 h2 h3
  · exact step_refl w
  · exact step_refl w
  · exact ⟨fun id hc => hc, [.sendHeader code], rfl⟩
  · exact ⟨fun id hc => ⟨hc.1, fun _ => hc.1⟩, [.sendHeader code], rfl⟩

theorem orderly_connWrite (p : Payload) : Orderly (connWrite p) :=
  orderly_bind (orderly_connWriteHeader 200) fun _ _ =>
    ⟨fun _ hc => hc, [.sendBody p], rfl⟩

theorem orderly_HeaderSet (wr : ResponseWriter) (k v : String)
    (hne : CanonicalMIMEHeaderKey k ≠ CanonicalMIMEHeaderKey "X-Correlation-ID") :
    Orderly (wr.HeaderSet k v) := by
  induction wr with
  | conn => exact orderly_connHeaderSet k v hne
  | responseWriter cell inner ih => exact ih

theorem orderly_WriteHeader (wr : ResponseWriter) (code : Int) : Orderly (wr.WriteHeader code) := by
  induction wr with
  | conn => exact orderly_connWriteHeader code
  | responseWriter cell inner ih => exact orderly_bind (orderly_setStatusCode cell code) fun _ => ih

theorem orderly_Write (wr : ResponseWriter) (p : Payload) : Orderly (wr.Write p) := by
  induction wr with
  | conn => exact orderly_connWrite p
  | responseWriter cell inner ih => exact ih

theorem orderly_statusCode (wr : ResponseWriter) : Orderly wr.statusCode := by
  cases wr with
  | conn => exact orderly_pure _
  | responseWriter cell inner => exact orderly_getStatusCode cell

theorem orderly_httpError (wr : ResponseWriter) (msg : String) (code : Int) :
    Orderly (httpError wr msg code) :=
  orderly_bind (orderly_HeaderSet wr _ _ (by decide)) fun _ =>
    orderly_bind (orderly_HeaderSet wr _ _ (by decide)) fun _ =>
      orderly_bind (orderly_WriteHeader wr code) fun _ => orderly_Write wr _

theorem orderly_runOps (wr : ResponseWriter) (ops : List Op)
    (hops : ∀ op ∈ ops, op.setsCorrelation = false) : Orderly (runOps wr ops) := by
  induction ops with
  | nil => exact orderly_pure ()
  | cons op ops ih =>
    have hrest : ∀ op1 ∈ ops, op1.setsCorrelation = false :=
      fun op1 h1 => hops op1 (List.mem_cons_of_mem _ h1)
    have hop := hops op (List.mem_cons_self _ _)
    cases op with
    | setHeader k v =>
        refine orderly_bind (orderly_HeaderSet wr k v ?_) fun _ => ih hrest
        simpa [Op.setsCorrelation] using hop
    | writeHeader code => exact orderly_bind (orderly_WriteHeader wr code) fun _ => ih hrest
    | write p => exact orderly_bind (orderly_Write wr p) fun _ => ih hrest
    | log level args => exact orderly_bind (orderly_emit _) fun _ => ih hrest
    | panic msg => exact orderly_goPanic msg

theorem orderly_handlerOf (b : Request → List Op)
    (hb : ∀ r, ∀ op ∈ b r, op.setsCorrelation = false) (wr : ResponseWriter) (r : Request) :
    Orderly (handlerOf b wr r) :=
  orderly_bind (orderly_emit _) fun _ => orderly_runOps wr (b r) (hb r)

theorem orderly_scanRows (cid : String) (rows : List (Except String User)) :
    ∀ users, Orderly (scanRows cid rows users) := by
  induction rows with
  | nil => intro users; exact orderly_pure users
  | cons row rows ih =>
    intro users
    cases row with
    | ok user => exact ih _
    | error err => exact orderly_bind (orderly_loggerError _) fun _ => ih _

theorem orderly_GetUsers (wr : ResponseWriter) (r : Request) : Orderly (GetUsers wr r) := by
  refine orderly_bind (orderly_assertString _) fun cid =>
    orderly_bind (orderly_loggerInfo _) fun _ => orderly_bind orderly_dbSelectAll fun res => ?_
  cases res with
  | error err => exact orderly_bind (orderly_loggerError _) fun _ => orderly_httpError wr _ _
  | ok rows =>
      exact orderly_bind (orderly_scanRows cid rows []) fun users =>
        orderly_bind (orderly_HeaderSet wr _ _ (by decide)) fun _ =>
          orderly_bind (orderly_Write wr _) fun _ => orderly_emit _

theorem orderly_CreateUser (wr : ResponseWriter) (r : Request) : Orderly (CreateUser wr r) := by
  refine orderly_bind (orderly_assertString _) fun cid => ?_
  show Orderly (match r.body with
    | .invalid err => _
    | .request req => _)
  cases r.body with
  | invalid err => exact orderly_bind (orderly_loggerError _) fun _ => orderly_httpError wr _ _
  | request req =>
      show Orderly (if (req.Name == "" || req.Email == "") = true then _ else _)
      split_ifs
      · exact orderly_httpError wr _ _
      · refine orderly_bind (orderly_loggerInfo _) fun _ =>
          orderly_bind (orderly_dbInsert _ _) fun res => ?_
        cases res with
        | error err => exact orderly_bind (orderly_loggerError _) fun _ => orderly_httpError wr _ _
        | ok user =>
            exact orderly_bind (orderly_HeaderSet wr _ _ (by decide)) fun _ =>
              orderly_bind (orderly_WriteHeader wr _) fun _ => orderly_Write wr _

theorem orderly_GetUser (wr : ResponseWriter) (r : Request) : Orderly (GetUser wr r) := by
  refine orderly_bind (orderly_assertString _) fun cid => ?_
  show Orderly (match Atoi ((r.vars.lookup "id").getD "") with
    | none => _
    | some id => _)
  cases Atoi ((r.vars.lookup "id").getD "") with
  | none => exact orderly_httpError wr _ _
  | some id =>
      refine orderly_bind (orderly_loggerInfo _) fun _ =>
        orderly_bind (orderly_dbSelectOne id) fun res => ?_
      cases res with
      | error err =>
          cases err with
          | noRows => exact orderly_httpError wr _ _
          | other msg => exact orderly_bind (orderly_loggerError _) fun _ => orderly_httpError wr _ _
      | ok user =>
          exact orderly_bind (orderly_HeaderSet wr _ _ (by decide)) fun _ => orderly_Write wr _

theorem orderly_MetricsMiddleware (next : Handler) (hnext : ∀ wr r, Orderly (next wr r))
    (wr : ResponseWriter) (r : Request) : Orderly (MetricsMiddleware next wr r) :=
  orderly_bind orderly_timeNow fun _ =>
    orderly_bind (orderly_newResponseWriter _ _) fun wrapped =>
      orderly_bind (hnext wrapped r) fun _ =>
        orderly_bind (orderly_timeSince _) fun _ =>
          orderly_bind (orderly_statusCode wrapped) fun _ =>
            orderly_bind (orderly_emit _) fun _ => orderly_emit _

theorem orderly_RateLimitMiddleware (next : Handler) (hnext : ∀ wr r, Orderly (next wr r))
    (wr : ResponseWriter) (r : Request) : Orderly (RateLimitMiddleware next wr r) := by
  refine orderly_bind orderly_limiterAllow fun ok => ?_
  cases ok with
  | false => exact orderly_httpError wr _ _
  | true => exact hnext wr r

theorem keepsCorrelation_of_orderly (next : Handler) (hnext : ∀ wr r, Orderly (next wr r)) :
    KeepsCorrelation next :=
  fun id wr r w h => (hnext wr r w).1 id h

/-! ## One correlation id per request -/

/-- How `LoggingMiddleware` continues after its handler. -/
theorem logging_run (next : Handler) (r : Request) (w : World) :
    (∀ w2, next (loggingWriter w) (observedRequest r w) (loggingEntry r w) = .ok () w2 →
      LoggingMiddleware next .conn r w = .ok ()
        { w2 with
          clockCalls := w2.clockCalls + 1
          trace := w2.trace ++
            [.now (w2.clock w2.clockCalls),
             completedRecord r (w2.cells.getD w.cells.length 0)
               ((w2.clock w2.clockCalls - w.clock w.clockCalls) / 1000000) (w.uuids w.uuidCalls)] }) ∧
    (∀ e w2, next (loggingWriter w) (observedRequest r w) (loggingEntry r w) = .abort e w2 →
      LoggingMiddleware next .conn r w = .abort e w2) := by
  constructor
  · intro w2 h
    simp [LoggingMiddleware, uuidNewString, timeNow, timeSince, loggerInfo, emit,
      newResponseWriter, ResponseWriter.HeaderSet, connHeaderSet, StatusOK,
      ResponseWriter.statusCode, getStatusCode, completedRecord, Request.WithValue,
      loggingEntry, loggingWriter, observedRequest, startedRecord] at h ⊢
    simp [h]
  · intro e w2 h
    simp [LoggingMiddleware, uuidNewString, timeNow, timeSince, loggerInfo, emit,
      newResponseWriter, ResponseWriter.HeaderSet, connHeaderSet, StatusOK,
      ResponseWriter.statusCode, getStatusCode, completedRecord, Request.WithValue,
      loggingEntry, loggingWriter, observedRequest, startedRecord] at h ⊢
    simp [h]

theorem carries_loggingEntry (r : Request) (w : World) (hfresh : w.resp.wroteHeader = false) :
    CarriesCorrelation (w.uuids w.uuidCalls) (loggingEntry r w).resp :=
  ⟨Header.Get_Set_self _ _ _, fun h => by
    have : w.resp.wroteHeader = true := h
    rw [hfresh] at this
    exact absurd this (by decide)⟩

/-- The response of a request served through `LoggingMiddleware` carries the id the
middleware generated, provided the handler keeps the header. -/
theorem serve_logging_carries (next : Handler) (r : Request) (w : World)
    (hkeep : KeepsCorrelation next) :
    CarriesCorrelation (w.uuids w.uuidCalls) (serve (LoggingMiddleware next) r w).resp := by
  have hentry := carries_loggingEntry r { w with resp := freshResponse } rfl
  have hnext := hkeep _ (loggingWriter { w with resp := freshResponse })
    (observedRequest r { w with resp := freshResponse }) _ hentry
  obtain ⟨hok, habort⟩ := logging_run next r { w with resp := freshResponse }
  rw [serve_eq, M.bind_apply]
  cases hres : next (loggingWriter { w with resp := freshResponse })
      (observedRequest r { w with resp := freshResponse })
      (loggingEntry r { w with resp := freshResponse }) with
  | ok a w2 =>
      rw [hres] at hnext
      rw [hok w2 hres]
      exact (orderly_connWriteHeader 200 _).1 _ hnext
  | abort e w2 =>
      rw [hres] at hnext
      rw [habort e w2 hres]
      exact hnext

/-- C5: for a request handled by `LoggingMiddleware` whose handler leaves the
X-Correlation-ID header in place, one id (the value `uuid.New()` returned) is used
throughout: it is the "correlation_id" value of the context passed to the handler, the
correlation_id of the "Request started" record written before the handler runs, the
correlation_id of the "Request completed" record appended when the handler has returned,
and the X-Correlation-ID header of the response. -/
theorem correlation_id_is_shared (next : Handler) (r : Request) (w : World)
    (hkeep : KeepsCorrelation next) :
    (observedRequest r w).Value "correlation_id" = some (.str (w.uuids w.uuidCalls)) ∧
    (loggingEntry r w).trace = w.trace ++
      [.uuid (w.uuids w.uuidCalls), .now (w.clock w.clockCalls),
       startedRecord r (w.uuids w.uuidCalls)] ∧
    (loggingEntry r w).resp.header.Get "X-Correlation-ID" = some (w.uuids w.uuidCalls) ∧
    (∀ w2, next (loggingWriter w) (observedRequest r w) (loggingEntry r w) = .ok () w2 →
      ∃ w3, LoggingMiddleware next .conn r w = .ok () w3 ∧
        w3.trace = w2.trace ++
          [.now (w2.clock w2.clockCalls),
           completedRecord r (w2.cells.getD w.cells.length 0)
             ((w2.clock w2.clockCalls - w.clock w.clockCalls) / 1000000) (w.uuids w.uuidCalls)]) ∧
    (∀ e w2, next (loggingWriter w) (observedRequest r w) (loggingEntry r w) = .abort e w2 →
      LoggingMiddleware next .conn r w = .abort e w2) ∧
    CarriesCorrelation (w.uuids w.uuidCalls) (serve (LoggingMiddleware next) r w).resp := by
  obtain ⟨hok, habort⟩ := logging_run next r w
  refine ⟨?_, rfl, Header.Get_Set_self _ _ _, ?_, habort, serve_logging_carries next r w hkeep⟩
  · simp [observedRequest, Request.WithValue, Request.Value, List.lookup]
  · intro w2 h
    exact ⟨_, hok w2 h, rfl⟩

/-- Witness for C5: the sample handler writes a body and sets no header. -/
theorem correlation_id_is_shared_witness :
    (observedRequest sampleRequest sampleWorld).Value "correlation_id" = some (.str "uuid-0") ∧
    CarriesCorrelation "uuid-0" (serve (LoggingMiddleware okHandler) sampleRequest sampleWorld).resp := by
  have h := correlation_id_is_shared okHandler sampleRequest sampleWorld
    (keepsCorrelation_of_orderly okHandler
      (orderly_handlerOf _ (fun _ op hop => by
        simp only [List.mem_singleton] at hop
        subst hop
        rfl)))
  exact ⟨h.1, h.2.2.2.2.2⟩

/-! ## Which routes carry the correlation header -/

theorem serve_congr (h h1 : Handler) (r r1 : Request) (w : World)
    (heq : h .conn r = h1 .conn r1) : serve h r w = serve h1 r1 w := by
  rw [serve_eq, serve_eq, heq]

theorem applyMiddlewares_api (next : Handler) :
    applyMiddlewares apiMiddlewares next = apiPipeline next := rfl

/-- A request for one of the three `/api` routes is served by the pipeline around the
route's handler. -/
theorem router_api (prom : Handler) (r : Request) (hroute : isApiRoute r) :
    ∃ (next : Handler) (vars : List (String × String)),
      (∀ wr r1, Orderly (next wr r1)) ∧
      router prom .conn r = apiPipeline next .conn { r with vars := vars } := by
  rcases hroute with ⟨hm, hp⟩ | ⟨hm, hp⟩ | ⟨hm, id, hid, hp⟩
  · refine ⟨GetUsers, [], orderly_GetUsers, ?_⟩
    simp [router, serveMux, routes, matchRoutes, matchSegments, hm, hp, applyMiddlewares_api]
  · refine ⟨CreateUser, [], orderly_CreateUser, ?_⟩
    simp [router, serveMux, routes, matchRoutes, matchSegments, hm, hp, applyMiddlewares_api]
  · refine ⟨GetUser, [("id", id)], orderly_GetUser, ?_⟩
    simp [router, serveMux, routes, matchRoutes, matchSegments, hm, hp, hid, applyMiddlewares_api]

theorem finishRequest_trace (w : World) (pre : List Event) (h : ∃ evs, w.trace = pre ++ evs) :
    ∃ evs, (finishRequest w).world.trace = pre ++ evs := by
  obtain ⟨evs, hevs⟩ := h
  obtain ⟨_, evs1, hevs1⟩ := orderly_connWriteHeader 200 w
  exact ⟨evs ++ evs1, by rw [finishRequest, hevs1, hevs, List.append_assoc]⟩

theorem logging_finish_trace (next : Handler) (hnext : ∀ wr r, Orderly (next wr r))
    (r : Request) (w : World) :
    ∃ evs, ((LoggingMiddleware next .conn r >>= fun _ => finishRequest) w).world.trace = w.trace ++
      [.uuid (w.uuids w.uuidCalls), .now (w.clock w.clockCalls),
       startedRecord r (w.uuids w.uuidCalls)] ++ evs := by
  obtain ⟨hok, habort⟩ := logging_run next r w
  obtain ⟨_, evs, hevs⟩ := hnext (loggingWriter w) (observedRequest r w) (loggingEntry r w)
  rw [M.bind_apply]
  cases hres : next (loggingWriter w) (observedRequest r w) (loggingEntry r w) with
  | ok a w2 =>
      rw [hres] at hevs
      rw [hok w2 hres]
      dsimp only
      apply finishRequest_trace
      refine ⟨evs ++ [.now (w2.clock w2.clockCalls),
             completedRecord r (w2.cells.getD w.cells.length 0)
               ((w2.clock w2.clockCalls - w.clock w.clockCalls) / 1000000) (w.uuids w.uuidCalls)], ?_⟩
      simp only [Res.world] at hevs
      simp only [hevs, loggingEntry, List.append_assoc]
  | abort e w2 =>
      rw [hres] at hevs
      rw [habort e w2 hres]
      refine ⟨evs, ?_⟩
      simp only [Res.world] at hevs ⊢
      simp only [hevs, loggingEntry, List.append_assoc]

/-- The trace of a request served through `LoggingMiddleware` starts with the id, the
clock reading and the "Request started" record. -/
theorem serve_logging_trace (next : Handler) (hnext : ∀ wr r, Orderly (next wr r))
    (r : Request) (w : World) :
    ∃ evs, (serve (LoggingMiddleware next) r w).trace = w.trace ++
      [.uuid (w.uuids w.uuidCalls), .now (w.clock w.clockCalls),
       startedRecord r (w.uuids w.uuidCalls)] ++ evs := by
  rw [serve_eq]
  exact logging_finish_trace next hnext r { w with resp := freshResponse }

@[simp] theorem logRecords_append (a b : List Event) :
    logRecords (a ++ b) = logRecords a ++ logRecords b := by
  simp [logRecords]

/-- The three routes registered on the root router are served by their handlers alone. -/
theorem router_root (prom : Handler) (r : Request) (hm : r.method = "GET") :
    (pathSegments r.path = some ["health"] →
      router prom .conn r = Health .conn { r with vars := [] }) ∧
    (pathSegments r.path = some ["ready"] →
      router prom .conn r = Ready .conn { r with vars := [] }) ∧
    (pathSegments r.path = some ["metrics"] →
      router prom .conn r = prom .conn { r with vars := [] }) := by
  refine ⟨fun hp => ?_, fun hp => ?_, fun hp => ?_⟩ <;>
  simp [router, serveMux, routes, matchRoutes, matchSegments, hm, hp, applyMiddlewares]

/-- What `Health` alone leaves behind: a response without correlation header, no log
record, no id generated. -/
theorem serve_Health_plain (r : Request) (w : World) :
    (serve Health r w).resp.wroteHeader = true ∧
    (serve Health r w).resp.sentHeader.Get "X-Correlation-ID" = none ∧
    (serve Health r w).resp.header.Get "X-Correlation-ID" = none ∧
    logRecords (serve Health r w).trace = logRecords w.trace ∧
    (serve Health r w).uuidCalls = w.uuidCalls := by
  have hct : Header.Get (Header.Set [] "Content-Type" "application/json") "X-Correlation-ID" = none := by
    decide
  have hnil : Header.Get [] "X-Correlation-ID" = none := rfl
  rw [serve_eq]
  cases hping : w.db.ping <;>
  simp [Health, timeNow, dbPing, hping, ResponseWriter.HeaderSet, connHeaderSet,
    ResponseWriter.WriteHeader, ResponseWriter.Write, connWrite, connWriteHeader, finishRequest,
    freshResponse, StatusServiceUnavailable, Res.world, logRecords, hct, hnil]

/-- What `Ready` alone leaves behind: a response without correlation header, no log
record, no id generated. -/
theorem serve_Ready_plain (r : Request) (w : World) :
    (serve Ready r w).resp.wroteHeader = true ∧
    (serve Ready r w).resp.sentHeader.Get "X-Correlation-ID" = none ∧
    (serve Ready r w).resp.header.Get "X-Correlation-ID" = none ∧
    logRecords (serve Ready r w).trace = logRecords w.trace ∧
    (serve Ready r w).uuidCalls = w.uuidCalls := by
  have hct : Header.Get (Header.Set [] "Content-Type" "application/json") "X-Correlation-ID" = none := by
    decide
  have herr : Header.Get (Header.Set (Header.Set [] "Content-Type" "text/plain; charset=utf-8")
      "X-Content-Type-Options" "nosniff") "X-Correlation-ID" = none := by
    decide
  rw [serve_eq]
  cases hping : w.db.ping <;>
  simp [Ready, httpError, dbPing, hping, ResponseWriter.HeaderSet, connHeaderSet,
    ResponseWriter.WriteHeader, ResponseWriter.Write, connWrite, connWriteHeader, finishRequest,
    freshResponse, StatusServiceUnavailable, Res.world, logRecords, hct, herr]

/-- C6, counterexample: the response to `GET /health` goes out with status 200 and
without an X-Correlation-ID header, and nothing is logged for the request; the same
holds for `GET /ready`. -/
theorem health_response_lacks_correlation_header :
    (serve (router okHandler) healthRequest sampleWorld).resp.sentStatus = some 200 ∧
    (serve (router okHandler) healthRequest sampleWorld).resp.sentHeader.Get "X-Correlation-ID" = none ∧
    logRecords (serve (router okHandler) healthRequest sampleWorld).trace = [] ∧
    (serve (router okHandler) readyRequest sampleWorld).resp.sentStatus = some 200 ∧
    (serve (router okHandler) readyRequest sampleWorld).resp.sentHeader.Get "X-Correlation-ID" = none ∧
    logRecords (serve (router okHandler) readyRequest sampleWorld).trace = [] := by
  refine ⟨?_, ?_, ?_, ?_, ?_, ?_⟩ <;> decide

/-- C6, amended: every response to a request for one of the routes under `/api`
(`GET /api/users`, `POST /api/users`, `GET /api/users/{id}`) carries the X-Correlation-ID
header with the id that `LoggingMiddleware` generated for the request and logged in its
"Request started" record.  `GET /health` and `GET /ready` are registered on the root
router, outside the middleware: for every answer of the database their response goes
out without an X-Correlation-ID header, no id is generated and no record is logged.
`GET /metrics` is registered on the root router as well and is served by the promhttp
handler alone. -/
theorem api_responses_carry_correlation (prom : Handler) (r : Request) (w : World) :
    (isApiRoute r →
      CarriesCorrelation (w.uuids w.uuidCalls) (serve (router prom) r w).resp ∧
      ∃ evs, (serve (router prom) r w).trace = w.trace ++
        [.uuid (w.uuids w.uuidCalls), .now (w.clock w.clockCalls),
         startedRecord r (w.uuids w.uuidCalls)] ++ evs) ∧
    (r.method = "GET" →
      (pathSegments r.path = some ["health"] ∨ pathSegments r.path = some ["ready"]) →
      (serve (router prom) r w).resp.wroteHeader = true ∧
      (serve (router prom) r w).resp.sentHeader.Get "X-Correlation-ID" = none ∧
      (serve (router prom) r w).resp.header.Get "X-Correlation-ID" = none ∧
      logRecords (serve (router prom) r w).trace = logRecords w.trace ∧
      (serve (router prom) r w).uuidCalls = w.uuidCalls) ∧
    (r.method = "GET" → pathSegments r.path = some ["metrics"] →
      router prom .conn r = prom .conn { r with vars := [] } ∧
      serve (router prom) r w = serve prom { r with vars := [] } w) := by
  refine ⟨fun hroute => ?_, fun hm hp => ?_, fun hm hp => ?_⟩
  · obtain ⟨next, vars, hnext, heq⟩ := router_api prom r hroute
    have hinner : ∀ wr r1, Orderly (MetricsMiddleware (RateLimitMiddleware next) wr r1) :=
      orderly_MetricsMiddleware _ (orderly_RateLimitMiddleware next hnext)
    rw [serve_congr (router prom) (LoggingMiddleware (MetricsMiddleware (RateLimitMiddleware next)))
      r { r with vars := vars } w heq]
    exact ⟨serve_logging_carries _ _ w (keepsCorrelation_of_orderly _ hinner),
      serve_logging_trace _ hinner _ w⟩
  · obtain ⟨hhealth, hready, _⟩ := router_root prom r hm
    rcases hp with hp | hp
    · rw [serve_congr (router prom) Health r { r with vars := [] } w (hhealth hp)]
      exact serve_Health_plain _ w
    · rw [serve_congr (router prom) Ready r { r with vars := [] } w (hready hp)]
      exact serve_Ready_plain _ w
  · obtain ⟨_, _, hmetrics⟩ := router_root prom r hm
    exact ⟨hmetrics hp, serve_congr _ _ _ _ w (hmetrics hp)⟩

/-- Witness for C6: `GET /api/users` is one of the three routes; on the sample world it
is answered 200 with the header set to the first generated id, while `GET /ready` is
answered without the header. -/
theorem api_responses_carry_correlation_witness :
    isApiRoute sampleRequest ∧
    (serve (router okHandler) sampleRequest sampleWorld).resp.sentStatus = some 200 ∧
    (serve (router okHandler) sampleRequest sampleWorld).resp.sentHeader.Get "X-Correlation-ID"
      = some "uuid-0" ∧
    (serve (router okHandler) readyRequest unreachableWorld).resp.sentHeader.Get "X-Correlation-ID"
      = none ∧
    router okHandler .conn metricsRequest = okHandler .conn { metricsRequest with vars := [] } := by
  have hcar := ((api_responses_carry_correlation okHandler sampleRequest sampleWorld).1
    (Or.inl ⟨rfl, by decide⟩)).1
  have hready := ((api_responses_carry_correlation okHandler readyRequest unreachableWorld).2.1
    rfl (Or.inr (by decide))).2.1
  have hmetrics := ((api_responses_carry_correlation okHandler metricsRequest sampleWorld).2.2
    rfl (by decide)).1
  have hs : (serve (router okHandler) sampleRequest sampleWorld).resp.sentStatus = some 200 := by
    rw [serve_eq]
    simp [router, serveMux, routes, matchRoutes, matchSegments, sampleRequest, pathSegments, splitSlash,
      applyMiddlewares_api, apiPipeline, LoggingMiddleware, MetricsMiddleware, RateLimitMiddleware,
      limiterAllow, uuidNewString, timeNow, timeSince, loggerInfo, emit, newResponseWriter,
      ResponseWriter.HeaderSet, connHeaderSet, StatusOK, ResponseWriter.statusCode, getStatusCode,
      Request.WithValue, GetUsers, assertString, Request.Value, List.lookup, dbSelectAll, sampleWorld,
      sampleDb, scanRows, ResponseWriter.Write, connWrite, connWriteHeader, freshResponse, finishRequest,
      Response.sentStatus, Res.world, limiter, NewLimiter, TokenBucket.allow, tokenUnit]
  refine ⟨Or.inl ⟨rfl, by decide⟩, hs, hcar.2 ?_, hready, hmetrics⟩
  simp only [Response.sentStatus] at hs
  split_ifs at hs with h
  exact h

/-! ## Order of the middleware -/

/-- C7: the three `api.Use` calls of `main` make the handler of every `/api` route
`LoggingMiddleware(MetricsMiddleware(RateLimitMiddleware(handler)))`.  For an admitted
request the effects before the resource handler starts are, in order, Logging's
pre-phase (id, clock, "Request started"), Metrics' pre-phase (clock) and the admission
check; when the handler has returned, Metrics' post-phase (clock, counter, histogram)
comes first and Logging's post-phase (clock, "Request completed") last. -/
theorem middleware_onion_order (next : Handler) (r : Request) (w : World)
    (hallowed : (w.limiter.allow (w.clock (w.clockCalls + 2))).2 = true) :
    applyMiddlewares apiMiddlewares next
      = LoggingMiddleware (MetricsMiddleware (RateLimitMiddleware next)) ∧
    (∀ (prom : Handler) (r1 : Request), isApiRoute r1 → ∃ h vars,
      router prom .conn r1
        = LoggingMiddleware (MetricsMiddleware (RateLimitMiddleware h)) .conn { r1 with vars := vars }) ∧
    (admittedEntry r w).trace = w.trace ++
      [.uuid (w.uuids w.uuidCalls), .now (w.clock w.clockCalls),
       startedRecord r (w.uuids w.uuidCalls), .now (w.clock (w.clockCalls + 1)),
       .now (w.clock (w.clockCalls + 2)), .allow true] ∧
    (∀ w2, next (observedWriter w) (observedRequest r w) (admittedEntry r w) = .ok () w2 →
      ∃ w3, applyMiddlewares apiMiddlewares next .conn r w = .ok () w3 ∧
        w3.trace = w2.trace ++
          [.now (w2.clock w2.clockCalls),
           .counterInc [r.method, r.path, Itoa (w2.cells.getD (w.cells.length + 1) 0)],
           .histObserve [r.method, r.path] (w2.clock w2.clockCalls - w.clock (w.clockCalls + 1)),
           .now (w2.clock (w2.clockCalls + 1)),
           completedRecord r (w2.cells.getD w.cells.length 0)
             ((w2.clock (w2.clockCalls + 1) - w.clock w.clockCalls) / 1000000)
             (w.uuids w.uuidCalls)]) := by
  refine ⟨rfl, ?_, rfl, ?_⟩
  · intro prom r1 hr1
    obtain ⟨h, vars, _, heq⟩ := router_api prom r1 hr1
    exact ⟨h, vars, heq⟩
  · intro w2 h
    rw [applyMiddlewares_api]
    simp [apiPipeline, LoggingMiddleware, MetricsMiddleware, RateLimitMiddleware, limiterAllow, hallowed,
      uuidNewString, timeNow, timeSince, loggerInfo, emit,
      newResponseWriter, ResponseWriter.HeaderSet, connHeaderSet, StatusOK,
      ResponseWriter.statusCode, getStatusCode, completedRecord, Request.WithValue,
      admittedEntry, observedWriter, observedRequest, startedRecord] at h ⊢
    simp [h]

/-- Witness for C7: the full bucket of the sample world admits the sample request. -/
theorem middleware_onion_order_witness :
    (sampleWorld.limiter.allow (sampleWorld.clock (sampleWorld.clockCalls + 2))).2 = true ∧
    ∃ w3, applyMiddlewares apiMiddlewares okHandler .conn sampleRequest sampleWorld = .ok () w3 := by
  have hallowed : (sampleWorld.limiter.allow (sampleWorld.clock (sampleWorld.clockCalls + 2))).2 = true := by
    decide
  have hok : (okHandler (observedWriter sampleWorld) (observedRequest sampleRequest sampleWorld)
      (admittedEntry sampleRequest sampleWorld)).returned = true := by
    simp [okHandler, handlerOf, runOps, emit, ResponseWriter.Write, connWrite, connWriteHeader,
      observedWriter, admittedEntry, sampleWorld, freshResponse, Res.returned]
  obtain ⟨w3, h3, _⟩ := (middleware_onion_order okHandler sampleRequest sampleWorld hallowed).2.2.2
    _ (Res.eq_ok_of_returned _ hok)
  exact ⟨hallowed, w3, h3⟩

/-! ## Shutdown -/

/-- How `main` ends once the database is connected and the listener is bound. -/
theorem main_run (env : Env) (w : World) (hdb : env.dbErr = none) (hlisten : env.listenErr = none) :
    main env w = match env.shutdownErr with
      | some err => .abort (.exit 1)
          { w with trace := w.trace ++ startupRecords env ++
              [.call "signal", .log .info [.str "Server shutting down..."], .call "srv.Shutdown",
               .log .fatal [.str "Server forced to shutdown", .str "error", .str err]] }
      | none => .ok ()
          { w with trace := w.trace ++ startupRecords env ++
              [.call "signal", .log .info [.str "Server shutting down..."], .call "srv.Shutdown",
               .log .info [.str "Server exited"],
               .call "cancel", .call "db.Close", .call "log.Sync"] } := by
  cases hs : env.shutdownErr <;>
  simp [main, withDefer, hdb, hlisten, hs, loggerInfo, loggerFatal, emit, osExit, startupRecords]

/-- C8, counterexample: when `srv.Shutdown` returns an error, `main` ends in
`os.Exit(1)`; the last record is the fatal "Server forced to shutdown", there is no
"Server exited" record, and none of the deferred calls (`cancel`, `db.Close`,
`log.Sync`) is made. -/
theorem forced_shutdown_exits_with_failure :
    (main (sampleEnv (some "context deadline exceeded")) sampleWorld).reason = some (.exit 1) ∧
    logRecords (main (sampleEnv (some "context deadline exceeded")) sampleWorld).world.trace
      = [(.info, [.str "Configuration loaded", .str "port", .str "8080", .str "db_host", .str "localhost"]),
         (.info, [.str "Database connection established"]),
         (.info, [.str "Skipping automatic migrations - table should be created manually"]),
         (.info, [.str "Server starting", .str "port", .str "8080"]),
         (.info, [.str "Server shutting down..."]),
         (.fatal, [.str "Server forced to shutdown", .str "error", .str "context deadline exceeded"])] ∧
    libraryCalls (main (sampleEnv (some "context deadline exceeded")) sampleWorld).world.trace
      = ["signal", "srv.Shutdown"] := by
  rw [main_run _ _ rfl rfl]
  refine ⟨rfl, ?_, ?_⟩ <;> decide

/-- C8, amended: when `srv.Shutdown` returns an error, `main` logs "Server forced to
shutdown" at fatal level and the process terminates there with exit status 1: no
"Server exited" record follows and the deferred calls do not run.  Only when
`srv.Shutdown` returns nil does `main` log "Server exited", run the deferred `cancel`,
`db.Close` and `log.Sync`, and return. -/
theorem shutdown_error_is_fatal (env : Env) (w : World)
    (hdb : env.dbErr = none) (hlisten : env.listenErr = none) :
    (∀ err, env.shutdownErr = some err →
      (main env w).reason = some (.exit 1) ∧
      (main env w).world.trace = w.trace ++ startupRecords env ++
        [.call "signal", .log .info [.str "Server shutting down..."], .call "srv.Shutdown",
         .log .fatal [.str "Server forced to shutdown", .str "error", .str err]]) ∧
    (env.shutdownErr = none →
      (main env w).reason = none ∧
      (main env w).world.trace = w.trace ++ startupRecords env ++
        [.call "signal", .log .info [.str "Server shutting down..."], .call "srv.Shutdown",
         .log .info [.str "Server exited"],
         .call "cancel", .call "db.Close", .call "log.Sync"]) := by
  constructor
  · intro err herr
    rw [main_run env w hdb hlisten, herr]
    exact ⟨rfl, rfl⟩
  · intro hnone
    rw [main_run env w hdb hlisten, hnone]
    exact ⟨rfl, rfl⟩

/-- Witness for C8: a drain that times out, and one that completes. -/
theorem shutdown_error_is_fatal_witness :
    (main (sampleEnv (some "context deadline exceeded")) sampleWorld).reason = some (.exit 1) ∧
    (main (sampleEnv none) sampleWorld).reason = none :=
  ⟨((shutdown_error_is_fatal (sampleEnv (some "context deadline exceeded")) sampleWorld rfl rfl).1
      "context deadline exceeded" rfl).1,
   ((shutdown_error_is_fatal (sampleEnv none) sampleWorld rfl rfl).2 rfl).1⟩

/-! ## Metric labels -/

/-- How `MetricsMiddleware` continues after its handler. -/
theorem metrics_run (next : Handler) (wr : ResponseWriter) (r : Request) (w : World) :
    (∀ w2, next (.responseWriter w.cells.length wr) r (metricsEntry w) = .ok () w2 →
      MetricsMiddleware next wr r w = .ok ()
        { w2 with
          clockCalls := w2.clockCalls + 1
          trace := w2.trace ++
            [.now (w2.clock w2.clockCalls),
             .counterInc [r.method, r.path, Itoa (w2.cells.getD w.cells.length 0)],
             .histObserve [r.method, r.path] (w2.clock w2.clockCalls - w.clock w.clockCalls)] }) ∧
    (∀ e w2, next (.responseWriter w.cells.length wr) r (metricsEntry w) = .abort e w2 →
      MetricsMiddleware next wr r w = .abort e w2) := by
  constructor
  · intro w2 h
    simp [MetricsMiddleware, timeNow, timeSince, emit, newResponseWriter, StatusOK,
      ResponseWriter.statusCode, getStatusCode, metricsEntry] at h ⊢
    simp [h]
  · intro e w2 h
    simp [MetricsMiddleware, timeNow, timeSince, emit, newResponseWriter, StatusOK,
      ResponseWriter.statusCode, getStatusCode, metricsEntry] at h ⊢
    simp [h]

@[simp] theorem counterSeries_append (a b : List Event) :
    counterSeries (a ++ b) = counterSeries a ++ counterSeries b := by
  simp [counterSeries]

@[simp] theorem histogramSeries_append (a b : List Event) :
    histogramSeries (a ++ b) = histogramSeries a ++ histogramSeries b := by
  simp [histogramSeries]

/-- C9, counterexample: a request answered 400 increments the series labelled "400"
and a request with the same method and path answered 404 increments the series labelled
"404": two statuses of one class, two series. -/
theorem counter_is_not_keyed_by_status_class :
    counterSeries (MetricsMiddleware (statusHandler 400) .conn sampleRequest sampleWorld).world.trace
      = [["GET", "/api/users", "400"]] ∧
    counterSeries (MetricsMiddleware (statusHandler 404) .conn sampleRequest sampleWorld).world.trace
      = [["GET", "/api/users", "404"]] := by
  constructor <;> decide

/-- C9, amended: for every request whose handler returns, `MetricsMiddleware` increments
the counter series labelled (method, path, captured status code in decimal), so each
distinct status code has its own series, and observes the duration in the histogram
series labelled (method, path). -/
theorem counter_is_keyed_by_status_code (next : Handler) (wr : ResponseWriter) (r : Request)
    (w w2 : World)
    (h : next (.responseWriter w.cells.length wr) r (metricsEntry w) = .ok () w2) :
    ∃ w3, MetricsMiddleware next wr r w = .ok () w3 ∧
      w3.trace = w2.trace ++
        [.now (w2.clock w2.clockCalls),
         .counterInc [r.method, r.path, Itoa (w2.cells.getD w.cells.length 0)],
         .histObserve [r.method, r.path] (w2.clock w2.clockCalls - w.clock w.clockCalls)] ∧
      counterSeries w3.trace
        = counterSeries w2.trace ++ [[r.method, r.path, Itoa (w2.cells.getD w.cells.length 0)]] ∧
      histogramSeries w3.trace = histogramSeries w2.trace ++ [[r.method, r.path]] := by
  refine ⟨_, (metrics_run next wr r w).1 w2 h, rfl, ?_, ?_⟩
  · simp [counterSeries]
  · simp [histogramSeries]

/-- Witness for C9: a handler that answers 404. -/
theorem counter_is_keyed_by_status_code_witness :
    ∃ w3, MetricsMiddleware (statusHandler 404) .conn sampleRequest sampleWorld = .ok () w3 := by
  have hok : (statusHandler 404 (.responseWriter sampleWorld.cells.length .conn) sampleRequest
      (metricsEntry sampleWorld)).returned = true := by
    simp [statusHandler, handlerOf, runOps, emit, ResponseWriter.WriteHeader, setStatusCode,
      connWriteHeader, metricsEntry, sampleWorld, freshResponse, Res.returned]
  obtain ⟨w3, h3, _⟩ := counter_is_keyed_by_status_code (statusHandler 404) .conn sampleRequest
    sampleWorld _ (Res.eq_ok_of_returned _ hok)
  exact ⟨w3, h3⟩

/-! ## The token count stays in range -/

theorem allow_in_range (b : TokenBucket) (t : Nat) (h0 : 0 ≤ b.tokens)
    (hB : b.tokens ≤ (b.burst : Int) * tokenUnit) :
    0 ≤ (b.allow t).1.tokens ∧ (b.allow t).1.tokens ≤ ((b.allow t).1.burst : Int) * tokenUnit ∧
      (b.allow t).1.burst = b.burst := by
  unfold TokenBucket.allow
  simp only
  split_ifs with h
  · refine ⟨by simpa using h, ?_, rfl⟩
    have hmin := min_le_left ((b.burst : Int) * tokenUnit)
      (b.tokens + ((t : Int) - (b.last : Int)) * (b.rate : Int))
    have hu : (0 : Int) ≤ tokenUnit := by unfold tokenUnit; norm_num
    show min ((b.burst : Int) * tokenUnit) (b.tokens + ((t : Int) - (b.last : Int)) * (b.rate : Int))
      - tokenUnit ≤ (b.burst : Int) * tokenUnit
    linarith
  · exact ⟨h0, hB, rfl⟩

theorem allowSeq_in_range (times : List Nat) : ∀ (b : TokenBucket), 0 ≤ b.tokens →
    b.tokens ≤ (b.burst : Int) * tokenUnit →
    ∀ p ∈ allowSeq b times, 0 ≤ p.2.tokens ∧ p.2.tokens ≤ (b.burst : Int) * tokenUnit := by
  induction times with
  | nil => intro b _ _ p hp; simp [allowSeq] at hp
  | cons t ts ih =>
    intro b h0 hB p hp
    obtain ⟨r0, rB, rb⟩ := allow_in_range b t h0 hB
    simp only [allowSeq, List.mem_cons] at hp
    rcases hp with rfl | hp
    · exact ⟨r0, by rw [← rb]; exact rB⟩
    · have := ih (b.allow t).1 r0 rB p hp
      rw [rb] at this
      exact this

/-- C10: starting from a token count within [0, B], after every check of every sequence
of admission checks (at any times, in particular non-decreasing ones) the token count is
within [0, B]; an allowed check leaves at most B - 1 tokens, so the refill never raises
the count above B, and a denied check leaves the bucket unchanged. -/
theorem token_count_stays_in_range (b : TokenBucket) (times : List Nat)
    (h0 : 0 ≤ b.tokens) (hB : b.tokens ≤ (b.burst : Int) * tokenUnit) :
    (∀ p ∈ allowSeq b times, 0 ≤ p.2.tokens ∧ p.2.tokens ≤ (b.burst : Int) * tokenUnit) ∧
    (∀ (c : TokenBucket) (t : Nat), (c.allow t).2 = true →
      0 ≤ (c.allow t).1.tokens ∧ (c.allow t).1.tokens + tokenUnit ≤ (c.burst : Int) * tokenUnit) ∧
    (∀ (c : TokenBucket) (t : Nat), (c.allow t).2 = false → (c.allow t).1 = c) := by
  refine ⟨allowSeq_in_range times b h0 hB, ?_, ?_⟩
  · intro c t
    unfold TokenBucket.allow
    simp only
    split_ifs with h
    · intro _
      have hmin := min_le_left ((c.burst : Int) * tokenUnit)
        (c.tokens + ((t : Int) - (c.last : Int)) * (c.rate : Int))
      refine ⟨by simpa using h, ?_⟩
      show min ((c.burst : Int) * tokenUnit) (c.tokens + ((t : Int) - (c.last : Int)) * (c.rate : Int))
        - tokenUnit + tokenUnit ≤ (c.burst : Int) * tokenUnit
      linarith
    · intro hfalse
      exact absurd hfalse (by simp)
  · intro c t
    unfold TokenBucket.allow
    simp only
    split_ifs with h
    · intro hfalse
      exact absurd hfalse (by simp)
    · intro _
      rfl

/-- Witness for C10: the configured limiter, checked at 0 ns, twice at 1 ms and at 2 s;
the bucket after the first check is within range. -/
theorem token_count_stays_in_range_witness :
    0 ≤ limiter.tokens ∧ limiter.tokens ≤ (limiter.burst : Int) * tokenUnit ∧
    0 ≤ (limiter.allow 0).1.tokens ∧ (limiter.allow 0).1.tokens ≤ (limiter.burst : Int) * tokenUnit :=
  ⟨by decide, by decide,
   (token_count_stays_in_range limiter [0, 1000000, 1000000, 2000000000] (by decide) (by decide)).1
     ((limiter.allow 0).2, (limiter.allow 0).1) (List.mem_cons_self _ _)⟩

/-! ## CreateUser -/

theorem HeaderSet_eq_conn (wr : ResponseWriter) (k v : String) :
    wr.HeaderSet k v = connHeaderSet k v := by
  induction wr with
  | conn => rfl
  | responseWriter cell inner ih => exact ih

theorem Write_eq_conn (wr : ResponseWriter) (p : Payload) : wr.Write p = connWrite p := by
  induction wr with
  | conn => rfl
  | responseWriter cell inner ih => exact ih

theorem WriteHeader_eq_conn (wr : ResponseWriter) (code : Int) : ∀ w : World,
    wr.WriteHeader code w = connWriteHeader code { w with cells := recordStatus wr code w.cells } := by
  induction wr with
  | conn => intro w; rfl
  | responseWriter cell inner ih =>
      intro w
      show (setStatusCode cell code >>= fun _ => inner.WriteHeader code) w = _
      rw [M.bind_apply]
      simp only [setStatusCode]
      rw [ih]
      rfl

@[simp] theorem dbStatements_append (a b : List Event) :
    dbStatements (a ++ b) = dbStatements a ++ dbStatements b := by
  simp [dbStatements]

theorem httpError_fresh (wr : ResponseWriter) (msg : String) (code : Int) (w : World)
    (hfresh : w.resp.wroteHeader = false) (hlo : 200 ≤ code) (hhi : code ≤ 999) :
    ∃ w1, httpError wr msg code w = .ok () w1 ∧ w1.resp.sentStatus = some code ∧
      dbStatements w1.trace = dbStatements w.trace := by
  have hvalid : ¬ (code < 100 ∨ code > 999) := by omega
  have hfinal : ¬ (100 ≤ code ∧ code ≤ 199 ∧ code ≠ 101) := by omega
  simp [httpError, HeaderSet_eq_conn, Write_eq_conn, WriteHeader_eq_conn, connHeaderSet,
    connWriteHeader, connWrite, hfresh, hvalid, hfinal, Response.sentStatus, dbStatements]


theorem respond_created (wr : ResponseWriter) (user : User) (w : World)
    (hfresh : w.resp.wroteHeader = false) :
    ∃ w1, (do
        wr.HeaderSet "Content-Type" "application/json"
        wr.WriteHeader StatusCreated
        wr.Write (.jsonUser user) : M Unit) w = .ok () w1 ∧
      w1.resp.sentStatus = some 201 ∧ w1.resp.body = w.resp.body ++ [.jsonUser user] ∧
      w1.resp.sentHeader.Get "Content-Type" = some "application/json" ∧
      dbStatements w1.trace = dbStatements w.trace := by
  simp [HeaderSet_eq_conn, Write_eq_conn, WriteHeader_eq_conn, connHeaderSet, connWriteHeader,
    connWrite, hfresh, StatusCreated, Response.sentStatus, dbStatements, Header.Get_Set_self]

/-- C11: for a request carrying a correlation id, on a response not yet started and a
database whose INSERT returns the row it inserted, `CreateUser` returns and its response
status is 400 exactly when the body failed to decode or the decoded name or email is
empty, in which case no database statement is issued; otherwise exactly one INSERT with
(name, email) is issued, and the response is 201 with the returned row as JSON body
(same name and email as requested) when the insert succeeds and 500 when it fails. -/
theorem createUser_status (wr : ResponseWriter) (r : Request) (w : World) (id : String)
    (hctx : r.Value "correlation_id" = some (.str id))
    (hfresh : w.resp.wroteHeader = false) (hdb : ReturnsInserted w.db) :
    ∃ w1, CreateUser wr r w = .ok () w1 ∧
      (w1.resp.sentStatus = some 400 ↔
        ((∃ err, r.body = .invalid err) ∨
          ∃ req, r.body = .request req ∧ (req.Name = "" ∨ req.Email = ""))) ∧
      (w1.resp.sentStatus = some 400 → dbStatements w1.trace = dbStatements w.trace) ∧
      (∀ req, r.body = .request req → req.Name ≠ "" → req.Email ≠ "" →
        dbStatements w1.trace
          = dbStatements w.trace ++ [(insertQuery, [.str req.Name, .str req.Email])] ∧
        (∀ user, w.db.insert req.Name req.Email = .ok user →
          w1.resp.sentStatus = some 201 ∧ w1.resp.body = w.resp.body ++ [.jsonUser user] ∧
          user.Name = req.Name ∧ user.Email = req.Email) ∧
        (∀ err, w.db.insert req.Name req.Email = .error err →
          w1.resp.sentStatus = some 500)) := by
  cases hb : r.body with
  | invalid err =>
      obtain ⟨w1, h1, h2, h3⟩ := httpError_fresh wr "Invalid request body" 400
        { w with trace := w.trace ++ [.log .error [.str "Failed to decode request", .str "error",
            .str err, .str "correlation_id", .str id]] } hfresh (by norm_num) (by norm_num)
      refine ⟨w1, ?_, ?_, fun _ => by rw [h3]; simp [dbStatements], ?_⟩
      · simpa [CreateUser, hctx, assertString, hb, loggerError, emit, StatusBadRequest] using h1
      · simp [h2]
      · intro req hreq
        exact absurd hreq (by simp)
  | request req =>
      by_cases hempty : req.Name = "" ∨ req.Email = ""
      · obtain ⟨w1, h1, h2, h3⟩ := httpError_fresh wr "Name and email are required" 400 w hfresh
          (by norm_num) (by norm_num)
        refine ⟨w1, ?_, ?_, fun _ => h3, ?_⟩
        · simpa [CreateUser, hctx, assertString, hb, hempty, StatusBadRequest] using h1
        · simp [h2, hempty]
        · intro req1 hreq hn he
          simp only [DecodedBody.request.injEq] at hreq
          subst hreq
          rcases hempty with h | h
          · exact absurd h hn
          · exact absurd h he
      · have hname : req.Name ≠ "" := fun h => hempty (Or.inl h)
        have hemail : req.Email ≠ "" := fun h => hempty (Or.inr h)
        cases hins : w.db.insert req.Name req.Email with
        | error err =>
            obtain ⟨w1, h1, h2, h3⟩ := httpError_fresh wr "Failed to create user" 500
              { w with trace := w.trace ++ [.log .info [.str "Creating user", .str "name",
                    .str req.Name, .str "email", .str req.Email, .str "correlation_id", .str id]]
                  ++ [.dbExec insertQuery [.str req.Name, .str req.Email]]
                  ++ [.log .error [.str "Failed to create user", .str "error", .str err.Error,
                    .str "correlation_id", .str id]] } hfresh (by norm_num) (by norm_num)
            refine ⟨w1, ?_, ?_, ?_, ?_⟩
            · simpa [CreateUser, hctx, assertString, hb, hname, hemail, loggerInfo, loggerError, emit,
                dbInsert, hins, StatusInternalServerError] using h1
            · simp [h2, hname, hemail]
            · intro h400
              rw [h2] at h400
              exact absurd h400 (by simp)
            · intro req1 hreq _ _
              simp only [DecodedBody.request.injEq] at hreq
              subst hreq
              refine ⟨by rw [h3]; simp [dbStatements], ?_, fun _ _ => h2⟩
              intro user hu
              rw [hins] at hu
              exact absurd hu (by simp)
        | ok user =>
            obtain ⟨w1, h1, h2, hbody, _, h3⟩ := respond_created wr user
              { w with trace := w.trace ++ [.log .info [.str "Creating user", .str "name",
                    .str req.Name, .str "email", .str req.Email, .str "correlation_id", .str id]]
                  ++ [.dbExec insertQuery [.str req.Name, .str req.Email]] } hfresh
            refine ⟨w1, ?_, ?_, ?_, ?_⟩
            · simpa [CreateUser, hctx, assertString, hb, hname, hemail, loggerInfo, emit, dbInsert,
                hins] using h1
            · simp [h2, hname, hemail]
            · intro h400
              rw [h2] at h400
              exact absurd h400 (by simp)
            · intro req1 hreq _ _
              simp only [DecodedBody.request.injEq] at hreq
              subst hreq
              refine ⟨by rw [h3]; simp [dbStatements], ?_, ?_⟩
              · intro user1 hu
                rw [hins] at hu
                simp only [Except.ok.injEq] at hu
                subst hu
                exact ⟨h2, hbody, hdb _ _ _ hins⟩
              · intro err herr
                rw [hins] at herr
                exact absurd herr (by simp)

/-- Witness for C11: the sample database returns the row it inserted, and the sample
`POST /api/users` request is answered 201. -/
theorem createUser_status_witness :
    ∃ w1, CreateUser .conn createRequest sampleWorld = .ok () w1 ∧
      w1.resp.sentStatus = some 201 ∧
      w1.resp.body = [.jsonUser ⟨1, "John Doe", "john@example.com", 0, 0⟩] := by
  have hdb : ReturnsInserted sampleWorld.db := by
    intro name email user h
    injection h with h
    subst h
    exact ⟨rfl, rfl⟩
  obtain ⟨w1, h1, _, _, h4⟩ := createUser_status .conn createRequest sampleWorld
    "test-correlation-id" rfl rfl hdb
  have h201 := (h4 { Name := "John Doe", Email := "john@example.com" } rfl (by decide)
    (by decide)).2.1 _ rfl
  exact ⟨w1, h1, h201.1, h201.2.1⟩

/-! ## Health -/

/-- C12, at the failing input: with a database that cannot be reached, `GET /health` is
answered 503 with the body status "unhealthy" and checks.database "error: connection
refused", but the header block that went out holds no Content-Type: the header map
receives "application/json" only after `WriteHeader(503)` has sent the headers.  With a
reachable database the answer is 200, "healthy", "ok", and Content-Type
application/json is sent. -/
theorem health_unhealthy_lacks_content_type :
    (serve Health healthRequest unreachableWorld).resp.sentStatus = some 503 ∧
    (serve Health healthRequest unreachableWorld).resp.body
      = [.jsonHealth ⟨"unhealthy", 0, "1.0.0", [("database", "error: connection refused")]⟩] ∧
    (serve Health healthRequest unreachableWorld).resp.sentHeader.Get "Content-Type" = none ∧
    (serve Health healthRequest unreachableWorld).resp.header.Get "Content-Type"
      = some "application/json" ∧
    (serve Health healthRequest sampleWorld).resp.sentStatus = some 200 ∧
    (serve Health healthRequest sampleWorld).resp.body
      = [.jsonHealth ⟨"healthy", 0, "1.0.0", [("database", "ok")]⟩] ∧
    (serve Health healthRequest sampleWorld).resp.sentHeader.Get "Content-Type"
      = some "application/json" := by
  refine ⟨?_, ?_, ?_, ?_, ?_, ?_, ?_⟩ <;> decide

/-! ## Computations that return -/

theorem returns_pure {α : Type} (a : α) : Returns (pure a : M α) := fun _ => rfl

theorem returns_bind {α β : Type} {m : M α} {f : α → M β} (hm : Returns m)
    (hf : ∀ a, Returns (f a)) : Returns (m >>= f) := by
  intro w
  rw [M.bind_apply]
  have h1 := hm w
  cases hres : m w with
  | ok a w1 => exact hf a w1
  | abort e w1 => rw [hres] at h1; exact absurd h1 (by simp [Res.returned])

theorem returns_emit (e : Event) : Returns (emit e) := fun _ => rfl

theorem returns_timeNow : Returns timeNow := fun _ => rfl

theorem returns_timeSince (start : Nat) : Returns (timeSince start) :=
  returns_bind returns_timeNow fun _ => returns_pure _

theorem returns_uuidNewString : Returns uuidNewString := fun _ => rfl

theorem returns_loggerInfo (args : List Value) : Returns (loggerInfo args) := returns_emit _

theorem returns_loggerError (args : List Value) : Returns (loggerError args) := returns_emit _

theorem returns_dbSelectAll : Returns dbSelectAll := fun _ => rfl

theorem returns_dbInsert (name email : String) : Returns (dbInsert name email) := fun _ => rfl

theorem returns_dbSelectOne (id : Int) : Returns (dbSelectOne id) := fun _ => rfl

theorem returns_newResponseWriter (inner : ResponseWriter) (code : Int) :
    Returns (newResponseWriter inner code) := fun _ => rfl

theorem returns_limiterAllow : Returns limiterAllow :=
  returns_bind returns_timeNow fun _ _ => rfl

theorem returns_statusCode (wr : ResponseWriter) : Returns wr.statusCode := by
  cases wr with
  | conn => exact returns_pure _
  | responseWriter cell inner => exact fun _ => rfl

theorem returns_assertString (v : Option Value) (h : ∃ id, v = some (.str id)) :
    Returns (assertString v) := by
  obtain ⟨id, rfl⟩ := h
  exact returns_pure id

theorem returns_connWriteHeader (code : Int) (hlo : 100 ≤ code) (hhi : code ≤ 999) :
    Returns (connWriteHeader code) := by
  intro w
  have hvalid : ¬ (code < 100 ∨ code > 999) := by omega
  unfold connWriteHeader
  split_ifs <;> rfl

theorem returns_connWrite (p : Payload) : Returns (connWrite p) :=
  returns_bind (returns_connWriteHeader 200 (by norm_num) (by norm_num)) fun _ _ => rfl

theorem returns_HeaderSet (wr : ResponseWriter) (k v : String) : Returns (wr.HeaderSet k v) := by
  rw [HeaderSet_eq_conn]
  exact fun _ => rfl

theorem returns_WriteHeader (wr : ResponseWriter) (code : Int) (hlo : 100 ≤ code)
    (hhi : code ≤ 999) : Returns (wr.WriteHeader code) := by
  intro w
  rw [WriteHeader_eq_conn]
  exact returns_connWriteHeader code hlo hhi _

theorem returns_Write (wr : ResponseWriter) (p : Payload) : Returns (wr.Write p) := by
  rw [Write_eq_conn]
  exact returns_connWrite p

theorem returns_httpError (wr : ResponseWriter) (msg : String) (code : Int) (hlo : 100 ≤ code)
    (hhi : code ≤ 999) : Returns (httpError wr msg code) :=
  returns_bind (returns_HeaderSet wr _ _) fun _ =>
    returns_bind (returns_HeaderSet wr _ _) fun _ =>
      returns_bind (returns_WriteHeader wr code hlo hhi) fun _ => returns_Write wr _

theorem returns_scanRows (cid : String) (rows : List (Except String User)) :
    ∀ users, Returns (scanRows cid rows users) := by
  induction rows with
  | nil => intro users; exact returns_pure users
  | cons row rows ih =>
    intro users
    cases row with
    | ok user => exact ih _
    | error err => exact returns_bind (returns_loggerError _) fun _ => ih _

theorem returns_GetUsers (wr : ResponseWriter) (r : Request) (h : HasCorrelation r) :
    Returns (GetUsers wr r) := by
  refine returns_bind (returns_assertString _ h) fun cid =>
    returns_bind (returns_loggerInfo _) fun _ => returns_bind returns_dbSelectAll fun res => ?_
  cases res with
  | error err =>
      exact returns_bind (returns_loggerError _) fun _ =>
        returns_httpError wr _ _ (by decide) (by decide)
  | ok rows =>
      exact returns_bind (returns_scanRows cid rows []) fun users =>
        returns_bind (returns_HeaderSet wr _ _) fun _ =>
          returns_bind (returns_Write wr _) fun _ => returns_emit _

theorem returns_CreateUser (wr : ResponseWriter) (r : Request) (h : HasCorrelation r) :
    Returns (CreateUser wr r) := by
  refine returns_bind (returns_assertString _ h) fun cid => ?_
  show Returns (match r.body with
    | .invalid err => _
    | .request req => _)
  cases r.body with
  | invalid err =>
      exact returns_bind (returns_loggerError _) fun _ =>
        returns_httpError wr _ _ (by decide) (by decide)
  | request req =>
      show Returns (if (req.Name == "" || req.Email == "") = true then _ else _)
      split_ifs
      · exact returns_httpError wr _ _ (by decide) (by decide)
      · refine returns_bind (returns_loggerInfo _) fun _ =>
          returns_bind (returns_dbInsert _ _) fun res => ?_
        cases res with
        | error err =>
            exact returns_bind (returns_loggerError _) fun _ =>
              returns_httpError wr _ _ (by decide) (by decide)
        | ok user =>
            exact returns_bind (returns_HeaderSet wr _ _) fun _ =>
              returns_bind (returns_WriteHeader wr _ (by decide) (by decide)) fun _ =>
                returns_Write wr _

theorem returns_GetUser (wr : ResponseWriter) (r : Request) (h : HasCorrelation r) :
    Returns (GetUser wr r) := by
  refine returns_bind (returns_assertString _ h) fun cid => ?_
  show Returns (match Atoi ((r.vars.lookup "id").getD "") with
    | none => _
    | some id => _)
  cases Atoi ((r.vars.lookup "id").getD "") with
  | none => exact returns_httpError wr _ _ (by decide) (by decide)
  | some id =>
      refine returns_bind (returns_loggerInfo _) fun _ =>
        returns_bind (returns_dbSelectOne id) fun res => ?_
      cases res with
      | error err =>
          cases err with
          | noRows => exact returns_httpError wr _ _ (by decide) (by decide)
          | other msg =>
              exact returns_bind (returns_loggerError _) fun _ =>
                returns_httpError wr _ _ (by decide) (by decide)
      | ok user =>
          exact returns_bind (returns_HeaderSet wr _ _) fun _ => returns_Write wr _

theorem returns_userHandler (h : Handler) (hh : IsUserHandler h) (wr : ResponseWriter)
    (r : Request) (hr : HasCorrelation r) : Returns (h wr r) := by
  rcases hh with rfl | rfl | rfl
  · exact returns_GetUsers wr r hr
  · exact returns_CreateUser wr r hr
  · exact returns_GetUser wr r hr

theorem returns_MetricsMiddleware (next : Handler) (r : Request)
    (hnext : ∀ wr, Returns (next wr r)) (wr : ResponseWriter) :
    Returns (MetricsMiddleware next wr r) :=
  returns_bind returns_timeNow fun _ =>
    returns_bind (returns_newResponseWriter _ _) fun wrapped =>
      returns_bind (hnext wrapped) fun _ =>
        returns_bind (returns_timeSince _) fun _ =>
          returns_bind (returns_statusCode wrapped) fun _ =>
            returns_bind (returns_emit _) fun _ => returns_emit _

theorem returns_RateLimitMiddleware (next : Handler) (r : Request)
    (hnext : ∀ wr, Returns (next wr r)) (wr : ResponseWriter) :
    Returns (RateLimitMiddleware next wr r) := by
  refine returns_bind returns_limiterAllow fun ok => ?_
  cases ok with
  | false => exact returns_httpError wr _ _ (by decide) (by decide)
  | true => exact hnext wr

theorem hasCorrelation_WithValue (r : Request) (id : String) :
    HasCorrelation (r.WithValue "correlation_id" (.str id)) :=
  ⟨id, by simp [Request.Value, Request.WithValue, List.lookup]⟩

theorem returns_LoggingMiddleware (next : Handler) (r : Request)
    (hnext : ∀ wr id, Returns (next wr (r.WithValue "correlation_id" (.str id))))
    (wr : ResponseWriter) : Returns (LoggingMiddleware next wr r) :=
  returns_bind returns_uuidNewString fun id =>
    returns_bind (returns_HeaderSet wr _ _) fun _ =>
      returns_bind returns_timeNow fun _ =>
        returns_bind (returns_loggerInfo _) fun _ =>
          returns_bind (returns_newResponseWriter _ _) fun wrapped =>
            returns_bind (hnext wrapped id) fun _ =>
              returns_bind (returns_timeSince _) fun _ =>
                returns_bind (returns_statusCode wrapped) fun _ => returns_loggerInfo _

theorem returns_apiPipeline (h : Handler) (hh : IsUserHandler h) (wr : ResponseWriter)
    (r : Request) : Returns (apiPipeline h wr r) :=
  returns_LoggingMiddleware _ r (fun wr1 id =>
    returns_MetricsMiddleware _ _ (fun wr2 =>
      returns_RateLimitMiddleware _ _ (fun wr3 =>
        returns_userHandler h hh wr3 _ (hasCorrelation_WithValue r id)) wr2) wr1) wr

/-! ## The correlation id type assertion -/

/-- A request for one of the three `/api` routes is served by the pipeline around one of
the three handlers of `users.go`. -/
theorem router_api_handler (prom : Handler) (r : Request) (hroute : isApiRoute r) :
    ∃ (h : Handler) (vars : List (String × String)),
      IsUserHandler h ∧ router prom .conn r = apiPipeline h .conn { r with vars := vars } := by
  rcases hroute with ⟨hm, hp⟩ | ⟨hm, hp⟩ | ⟨hm, id, hid, hp⟩
  · refine ⟨GetUsers, [], Or.inl rfl, ?_⟩
    simp [router, serveMux, routes, matchRoutes, matchSegments, hm, hp, applyMiddlewares_api]
  · refine ⟨CreateUser, [], Or.inr (Or.inl rfl), ?_⟩
    simp [router, serveMux, routes, matchRoutes, matchSegments, hm, hp, applyMiddlewares_api]
  · refine ⟨GetUser, [("id", id)], Or.inr (Or.inr rfl), ?_⟩
    simp [router, serveMux, routes, matchRoutes, matchSegments, hm, hp, hid, applyMiddlewares_api]

/-- The pipeline of an admitted request runs its handler on the request that
`LoggingMiddleware` built, and ends as the handler ends. -/
theorem apiPipeline_admitted_run (next : Handler) (r : Request) (w : World)
    (hallowed : (w.limiter.allow (w.clock (w.clockCalls + 2))).2 = true) :
    (∀ w2, next (observedWriter w) (observedRequest r w) (admittedEntry r w) = .ok () w2 →
      ∃ w3, apiPipeline next .conn r w = .ok () w3) ∧
    (∀ e w2, next (observedWriter w) (observedRequest r w) (admittedEntry r w) = .abort e w2 →
      apiPipeline next .conn r w = .abort e w2) := by
  constructor
  · intro w2 h
    simp [apiPipeline, LoggingMiddleware, MetricsMiddleware, RateLimitMiddleware, limiterAllow,
      hallowed, uuidNewString, timeNow, timeSince, loggerInfo, emit,
      newResponseWriter, ResponseWriter.HeaderSet, connHeaderSet, StatusOK,
      ResponseWriter.statusCode, getStatusCode, Request.WithValue,
      admittedEntry, observedWriter, observedRequest, startedRecord] at h ⊢
    simp [h]
  · intro e w2 h
    simp [apiPipeline, LoggingMiddleware, MetricsMiddleware, RateLimitMiddleware, limiterAllow,
      hallowed, uuidNewString, timeNow, timeSince, loggerInfo, emit,
      newResponseWriter, ResponseWriter.HeaderSet, connHeaderSet, StatusOK,
      ResponseWriter.statusCode, getStatusCode, Request.WithValue,
      admittedEntry, observedWriter, observedRequest, startedRecord] at h ⊢
    simp [h]

theorem userHandler_panics_without_id (h : Handler) (hh : IsUserHandler h) (wr : ResponseWriter)
    (r : Request) (w : World) (hnone : r.Value "correlation_id" = none) :
    h wr r w = .abort (.panic "interface conversion: interface is nil, not string") w := by
  rcases hh with rfl | rfl | rfl
  · simp [GetUsers, hnone, assertString, goPanic]
  · simp [CreateUser, hnone, assertString, goPanic]
  · simp [GetUser, hnone, assertString, goPanic]

/-- C13: every request for a route registered under `/api` is served by the pipeline
around `GetUsers`, `CreateUser` or `GetUser`; the pipeline hands an admitted request to
the handler with a string under "correlation_id" in its context; with such a context the
three handlers return, so no request served through the routes panics, whatever the
database answers.  Conversely, called with a context without that value, each of the
three handlers panics at the type assertion and leaves the world as it found it:
nothing is written or logged. -/
theorem correlation_assertion_is_safe :
    (∀ (prom : Handler) (r : Request), isApiRoute r → ∃ h vars,
      IsUserHandler h ∧ router prom .conn r = apiPipeline h .conn { r with vars := vars }) ∧
    (∀ (next : Handler) (r : Request) (w : World),
      (w.limiter.allow (w.clock (w.clockCalls + 2))).2 = true →
      (observedRequest r w).Value "correlation_id" = some (.str (w.uuids w.uuidCalls)) ∧
      (∀ w2, next (observedWriter w) (observedRequest r w) (admittedEntry r w) = .ok () w2 →
        ∃ w3, apiPipeline next .conn r w = .ok () w3) ∧
      (∀ e w2, next (observedWriter w) (observedRequest r w) (admittedEntry r w) = .abort e w2 →
        apiPipeline next .conn r w = .abort e w2)) ∧
    (∀ (h : Handler), IsUserHandler h → ∀ (wr : ResponseWriter) (r : Request) (w : World),
      HasCorrelation r → (h wr r w).returned = true) ∧
    (∀ (prom : Handler) (r : Request) (w : World), isApiRoute r →
      (router prom .conn r w).returned = true) ∧
    (∀ (h : Handler), IsUserHandler h → ∀ (wr : ResponseWriter) (r : Request) (w : World),
      r.Value "correlation_id" = none →
      h wr r w = .abort (.panic "interface conversion: interface is nil, not string") w) := by
  refine ⟨router_api_handler, ?_, ?_, ?_, userHandler_panics_without_id⟩
  · intro next r w hallowed
    obtain ⟨hok, habort⟩ := apiPipeline_admitted_run next r w hallowed
    exact ⟨by simp [observedRequest, Request.WithValue, Request.Value, List.lookup], hok, habort⟩
  · intro h hh wr r w hr
    exact returns_userHandler h hh wr r hr w
  · intro prom r w hroute
    obtain ⟨h, vars, hh, heq⟩ := router_api_handler prom r hroute
    rw [heq]
    exact returns_apiPipeline h hh .conn _ w

/-- Witness for C13: `GET /api/users` through the router returns; `GetUsers` called on
the bare sample request, whose context is empty, panics and changes nothing. -/
theorem correlation_assertion_is_safe_witness :
    (router okHandler .conn sampleRequest sampleWorld).returned = true ∧
    (CreateUser .conn createRequest sampleWorld).returned = true ∧
    GetUsers .conn sampleRequest sampleWorld
      = .abort (.panic "interface conversion: interface is nil, not string") sampleWorld :=
  ⟨correlation_assertion_is_safe.2.2.2.1 okHandler sampleRequest sampleWorld
      (Or.inl ⟨rfl, by decide⟩),
   correlation_assertion_is_safe.2.2.1 CreateUser (Or.inr (Or.inl rfl)) .conn createRequest
      sampleWorld ⟨"test-correlation-id", rfl⟩,
   correlation_assertion_is_safe.2.2.2.2 GetUsers (Or.inl rfl) .conn sampleRequest sampleWorld rfl⟩

end OctaByte
